import Mathlib

/-!
# Verification of `rotatarr.py` (northernpowerhouse/rotatarr)

A shallow embedding, in Lean 4, of the recovery decision engine in
`rotatarr.py`, together with proofs about the claims of the specification.

The embedding models Python values (`None`, booleans, integers, strings,
lists, dictionaries) as the mutual inductive family `PyVal`/`PyList`/`PyDict`
below, and translates the source functions (`is_indexer_error`,
`get_alternate_base_urls`, `build_ui_test_payload`, `set_base_url`,
`add_tag_to_indexer`, `_perform_test_with_retries`, `run_once`) into
executable Lean definitions.  Python exceptions are modelled with
`Except String`; the in-place mutation performed by the mutators is modelled
by returning the new value of the mutated record.

Notes on source fidelity:
* Python dictionaries are modelled as association lists with insertion-order
  semantics (`dset` updates an existing key in place, appends a fresh key at
  the end) which is exactly CPython's behaviour.  Python dict equality is
  order-insensitive; it is modelled by `pbeq` below.
* Line 601 of `rotatarr.py` reads `have the tag object` at column 0 — a
  comment that lost its leading `# ... ensure we ` prefix.  It is read as a
  comment; all block structure (indentation) of the surrounding code is taken
  literally.  In particular the tag retry pass (lines 521–705) and the
  failure bookkeeping (lines 706–726) sit inside the candidate `for` loop.
-/

set_option maxHeartbeats 1000000
set_option maxRecDepth 10000

namespace Rotatarr

mutual
/-- Model of a Python value as used by `rotatarr.py`: `None`, `bool`, `int`,
`str`, `list` and `dict` (with string keys, which is the only key type the
program uses). -/
inductive PyVal : Type where
  | none : PyVal
  | bool (b : Bool) : PyVal
  | int (n : Int) : PyVal
  | str (s : String) : PyVal
  | list (l : PyList) : PyVal
  | dict (d : PyDict) : PyVal

/-- A Python list of `PyVal`s (as its own inductive so that all recursions
are structural and reduce inside `decide`/`rfl`). -/
inductive PyList : Type where
  | nil : PyList
  | cons (hd : PyVal) (tl : PyList) : PyList

/-- A Python dict with string keys, in insertion order. -/
inductive PyDict : Type where
  | nil : PyDict
  | cons (key : String) (val : PyVal) (tl : PyDict) : PyDict
end

deriving instance DecidableEq for PyVal
deriving instance DecidableEq for PyList
deriving instance DecidableEq for PyDict
deriving instance Inhabited for PyVal

namespace PyList

/-- Length of a Python list. -/
def length : PyList → Nat
  | .nil => 0
  | .cons _ t => t.length + 1

/-- Convert to a Lean `List`. -/
def toList : PyList → List PyVal
  | .nil => []
  | .cons h t => h :: t.toList

/-- Build from a Lean `List`. -/
def ofList : List PyVal → PyList
  | [] => .nil
  | h :: t => .cons h (ofList t)

/-- Drop the first element (`l[1:]`); on `[]` gives `[]`. -/
def tail : PyList → PyList
  | .nil => .nil
  | .cons _ t => t

end PyList

namespace PyDict

/-- Number of entries. -/
def length : PyDict → Nat
  | .nil => 0
  | .cons _ _ t => t.length + 1

/-- `k in d` (Python key membership). -/
def contains (d : PyDict) (k : String) : Bool :=
  match d with
  | .nil => false
  | .cons k' _ t => k' == k || t.contains k

/-- `d.get(k)`: the value at key `k`, if present. -/
def get? (d : PyDict) (k : String) : Option PyVal :=
  match d with
  | .nil => Option.none
  | .cons k' v t => if k' == k then some v else t.get? k

/-- `d[k] = v`: overwrite the value at an existing key in place, append a new
key at the end (CPython insertion-order semantics). -/
def set (d : PyDict) (k : String) (v : PyVal) : PyDict :=
  match d with
  | .nil => .cons k v .nil
  | .cons k' w t => if k' == k then .cons k v t else .cons k' w (t.set k v)

/-- `d.pop(k, None)`: remove the entry with key `k` if present. -/
def pop (d : PyDict) (k : String) : PyDict :=
  match d with
  | .nil => .nil
  | .cons k' w t => if k' == k then t else .cons k' w (t.pop k)

/-- The list of keys, in order. -/
def keys : PyDict → List String
  | .nil => []
  | .cons k _ t => k :: t.keys

/-- The list of values, in order. -/
def values : PyDict → List PyVal
  | .nil => []
  | .cons _ v t => v :: t.values

end PyDict

/-- Python truthiness (`bool(v)`): `None`, `False`, `0`, `""`, `[]`, `{}`
are falsy, everything else is truthy. -/
def truthy : PyVal → Bool
  | .none => false
  | .bool b => b
  | .int n => n != 0
  | .str s => s != ""
  | .list .nil => false
  | .list _ => true
  | .dict .nil => false
  | .dict _ => true

mutual
/-- Python `==` on the modelled values: numbers compare by value
(`True == 1`), lists elementwise, dicts by key set and pointwise values
(order-insensitively), everything else by structure. -/
def pbeq : PyVal → PyVal → Bool
  | .none, .none => true
  | .bool a, .bool b => a == b
  | .bool a, .int b => (if a then (1 : Int) else 0) == b
  | .int a, .bool b => a == (if b then (1 : Int) else 0)
  | .int a, .int b => a == b
  | .str a, .str b => a == b
  | .list a, .list b => pbeqList a b
  | .dict a, .dict b => a.length == b.length && pbeqDictSub a b
  | _, _ => false

/-- Elementwise Python `==` of two lists. -/
def pbeqList : PyList → PyList → Bool
  | .nil, .nil => true
  | .cons a as, .cons b bs => pbeq a b && pbeqList as bs
  | _, _ => false

/-- Every entry of the first dict is matched by an equal value at the same
key in the second dict. -/
def pbeqDictSub : PyDict → PyDict → Bool
  | .nil, _ => true
  | .cons k v t, d2 =>
    (match d2.get? k with
     | some w => pbeq v w
     | Option.none => false) && pbeqDictSub t d2
end

/-- `str()` of the values the engine converts to state keys (indexer ids are
ints or strings in practice). -/
def pyStr : PyVal → String
  | .none => "None"
  | .bool true => "True"
  | .bool false => "False"
  | .int n => toString n
  | .str s => s
  | .list _ => "<list>"
  | .dict _ => "<dict>"

/-- Build a `PyDict` from a Lean list of entries (for concrete literals). -/
def PyDict.ofList : List (String × PyVal) → PyDict
  | [] => .nil
  | (k, v) :: t => .cons k v (PyDict.ofList t)

/-- Dict literal helper. -/
def pd (l : List (String × PyVal)) : PyVal := .dict (PyDict.ofList l)

/-- List literal helper. -/
def pl (l : List PyVal) : PyVal := .list (PyList.ofList l)

/-- String literal helper. -/
def ps (s : String) : PyVal := .str s

/-- Int literal helper. -/
def pi (n : Int) : PyVal := .int n

/-- Python `a or b`: the first operand if truthy, otherwise the second. -/
def pyOr (a b : PyVal) : PyVal := if truthy a then a else b

/-- `s.lower()` (ASCII, which is all the program compares). -/
def strLower (s : String) : String := String.mk (s.toList.map Char.toLower)

/-- `s.startswith(p)`. -/
def strStartsWith (s p : String) : Bool := p.toList.isPrefixOf s.toList

/-- Helper for `strContains`: does `n` occur inside the given list? -/
def infixGo (n : List Char) : List Char → Bool
  | [] => n.isEmpty
  | c :: t => n.isPrefixOf (c :: t) || infixGo n t

/-- Python `n in h` on strings (substring test). -/
def strContains (h n : String) : Bool := infixGo n.toList h.toList

instance {α β : Type} [DecidableEq α] [DecidableEq β] : DecidableEq (Except α β) := fun a b =>
  match a, b with
  | .ok x, .ok y => if h : x = y then .isTrue (by rw [h]) else .isFalse (by simp [h])
  | .error x, .error y => if h : x = y then .isTrue (by rw [h]) else .isFalse (by simp [h])
  | .ok _, .error _ => .isFalse (by simp)
  | .error _, .ok _ => .isFalse (by simp)

/-- `d.get(k)` with Python's `None` default. -/
def dgetv (d : PyDict) (k : String) : PyVal := (d.get? k).getD .none

/-- Python list membership `x in l` (elements compared to `x` with `==`). -/
def pyListMem (x : PyVal) (l : List PyVal) : Bool := l.any (fun e => pbeq e x)

/-- `l.append(v)` on a `PyList`. -/
def PyList.append (l : PyList) (v : PyVal) : PyList :=
  match l with
  | .nil => .cons v .nil
  | .cons h t => .cons h (t.append v)

/-- `int(s)` on a string: optional surrounding whitespace, optional sign,
then decimal digits; anything else raises (modelled as `none`). -/
def strToInt? (s : String) : Option Int :=
  let cs := (s.toList.dropWhile (·.isWhitespace)).reverse.dropWhile (·.isWhitespace) |>.reverse
  let (sign, digits) : Int × List Char :=
    match cs with
    | '-' :: t => (-1, t)
    | '+' :: t => (1, t)
    | t => (1, t)
  if digits.length > 0 && digits.all (·.isDigit) then
    some (sign * ((digits.foldl (fun n c => n * 10 + (c.toNat - '0'.toNat)) 0 : Nat) : Int))
  else Option.none

/-- Python `int(v)`; `none` models the conversion raising. -/
def pyToInt : PyVal → Option Int
  | .int n => some n
  | .bool b => some (if b then 1 else 0)
  | .str s => strToInt? s
  | _ => Option.none

/-! ## `is_indexer_error` (rotatarr.py lines 63–104) -/

/-- The `fields` scan of `is_indexer_error` (lines 93–99): look for a field
descriptor named (case-insensitively) `definitionfile` with an empty value.
`f.get('name').lower()` raises `AttributeError` when the name is truthy but
not a string, which the source does not guard against. -/
def fieldsDefinitionFileCheck : PyList → Except String Bool
  | .nil => .ok false
  | .cons f t =>
    match f with
    | .dict fd =>
      let name := dgetv fd "name"
      if truthy name then
        match name with
        | .str s =>
          if strLower s == "definitionfile" then
            let val := dgetv fd "value"
            if !truthy val && !pbeq val (.int 0) then .ok true
            else fieldsDefinitionFileCheck t
          else fieldsDefinitionFileCheck t
        | _ => .error "AttributeError"
      else fieldsDefinitionFileCheck t
    | _ => fieldsDefinitionFileCheck t

/-- The trailing `message` check of `is_indexer_error` (lines 100–104). -/
def finalMessageCheck (d : PyDict) : Except String Bool :=
  match dgetv d "message" with
  | .dict md => .ok (pbeq (dgetv md "type") (.str "error"))
  | _ => .ok false

/-- `is_indexer_error(indexer)` (lines 63–104).  The heuristic error
detector; `Except` models a Python exception escaping the call. -/
def isIndexerError (d : PyDict) : Except String Bool :=
  let state_field := pyOr (dgetv d "status") (pyOr (dgetv d "state") (dgetv d "Status"))
  if (match state_field with | .str s => strLower s == "error" | _ => false) then .ok true
  else if (match state_field with
           | .dict sd => truthy (pyOr (dgetv sd "mostRecentFailure") (dgetv sd "initialFailure"))
           | _ => false) then .ok true
  else if (match dgetv d "configContract" with
           | .dict cd => pbeq (dgetv cd "name") (.str "error")
           | _ => false) then .ok true
  else if truthy (dgetv d "error") || truthy (dgetv d "errors")
          || truthy (dgetv d "LastException") then .ok true
  else if truthy (dgetv d "lastError") then .ok true
  else if !truthy (dgetv d "definition") && !truthy (dgetv d "definitionId")
          && !truthy (dgetv d "definitionUid") && !truthy (dgetv d "implementation") then .ok true
  else
    match d.get? "fields" with
    | some (.list fl) =>
      match fieldsDefinitionFileCheck fl with
      | .error e => .error e
      | .ok true => .ok true
      | .ok false => finalMessageCheck d
    | _ => finalMessageCheck d

/-! ## `get_alternate_base_urls` (lines 107–140) -/

/-- The candidate collection phase of `get_alternate_base_urls`
(lines 108–134), before deduplication. -/
def collectCandidates (d : PyDict) : List PyVal :=
  let settings := pyOr (dgetv d "settings")
    (pyOr (dgetv d "Settings") ((d.get? "Settings").getD (.dict .nil)))
  let c1 : List PyVal :=
    match settings with
    | .dict s =>
      let baseurl := pyOr (dgetv s "baseUrl") (pyOr (dgetv s "BaseUrl") (dgetv s "BaseUrl"))
      if truthy baseurl then [baseurl] else []
    | _ => []
  let urls := pyOr (dgetv d "indexerUrls") (pyOr (dgetv d "indexerurls")
    (pyOr (dgetv d "urls") (pyOr (dgetv d "Urls") (pyOr (dgetv d "alternateUrls")
    (pyOr (dgetv d "AlternateUrls") (pyOr (dgetv d "legacyUrls") (dgetv d "legacyurls")))))))
  let c2 : List PyVal :=
    match urls with
    | .list l => l.toList.filter (fun u => match u with | .str s => s != "" | _ => false)
    | _ => []
  let config := pyOr (dgetv d "config")
    (pyOr (dgetv d "Config") (pyOr (dgetv d "configContract") (.dict .nil)))
  let c3 : List PyVal :=
    match config with
    | .dict c => c.values.filter (fun v => match v with | .str s => strStartsWith s "http" | _ => false)
    | _ => []
  let c4 : List PyVal :=
    match d.get? "fields" with
    | some (.list fl) => fl.toList.filterMap (fun f =>
        match f with
        | .dict fd =>
          match pyOr (dgetv fd "value") (dgetv fd "Value") with
          | .str s => if strStartsWith s "http" then some (.str s) else Option.none
          | _ => Option.none
        | _ => Option.none)
    | _ => []
  c1 ++ c2 ++ c3 ++ c4

/-- The deduplication loop of `get_alternate_base_urls` (lines 136–139):
`out = []; for c in candidates: if c not in out: out.append(c)`. -/
def dedupGo (out : List PyVal) : List PyVal → List PyVal
  | [] => out
  | c :: t => if pyListMem c out then dedupGo out t else dedupGo (out ++ [c]) t

/-- `get_alternate_base_urls(indexer)` (lines 107–140). -/
def getAlternateBaseUrls (d : PyDict) : List PyVal :=
  dedupGo [] (collectCandidates d)

/-! ## `build_ui_test_payload` (lines 143–165) -/

/-- `build_ui_test_payload(indexer)` (lines 143–165): project identity
fields, the settings dict, the field descriptors and the URL lists. -/
def buildUiTestPayload (d : PyDict) : PyDict :=
  let step := fun (out : PyDict) (k : String) =>
    match d.get? k with
    | some v => out.set k v
    | Option.none => out
  let out := ["id", "name", "implementation", "definitionId", "definitionUid"].foldl step .nil
  let out := match d.get? "settings" with | some (.dict s) => out.set "settings" (.dict s) | _ => out
  let out := match d.get? "fields" with | some (.list l) => out.set "fields" (.list l) | _ => out
  let out := match d.get? "indexerUrls" with | some (.list l) => out.set "indexerUrls" (.list l) | _ => out
  match d.get? "legacyUrls" with | some (.list l) => out.set "legacyUrls" (.list l) | _ => out

/-! ## `set_base_url` (lines 168–207) -/

/-- The `fields` fallback of `set_base_url` (lines 203–207): overwrite the
first field descriptor whose `value` is an HTTP(S)-looking string. -/
def replaceFirstHttpField (l : PyList) (url : PyVal) : PyList :=
  match l with
  | .nil => .nil
  | .cons f t =>
    match f with
    | .dict fd =>
      match fd.get? "value" with
      | some (.str s) =>
        if strStartsWith s "http" then .cons (.dict (fd.set "value" url)) t
        else .cons f (replaceFirstHttpField t url)
      | _ => .cons f (replaceFirstHttpField t url)
    | _ => .cons f (replaceFirstHttpField t url)

/-- `set_base_url(indexer, url)` (lines 168–207), returning the mutated
record.  Note the source's fall-through after line 193: when no settings
dict, no config dict and no existing `BaseUrl` key is present, the function
sets `indexer['BaseUrl'] = url` *without returning* and then also rewrites
the first element of `indexerUrls`/`legacyUrls` or the first HTTP-looking
field value. -/
def setBaseUrl (d : PyDict) (url : PyVal) : PyDict :=
  match d.get? "settings" with
  | some (.dict s) =>
    if s.contains "baseUrl" || s.contains "BaseUrl" then
      let s1 := if s.contains "baseUrl" then s.set "baseUrl" url else s
      let s2 := if s1.contains "BaseUrl" then s1.set "BaseUrl" url else s1
      d.set "settings" (.dict s2)
    else d.set "settings" (.dict (s.set "baseUrl" url))
  | _ =>
    match d.get? "config" with
    | some (.dict c) =>
      if c.contains "baseUrl" then d.set "config" (.dict (c.set "baseUrl" url))
      else if c.contains "BaseUrl" then d.set "config" (.dict (c.set "BaseUrl" url))
      else if c.contains "url" then d.set "config" (.dict (c.set "url" url))
      else if c.contains "Url" then d.set "config" (.dict (c.set "Url" url))
      else d.set "config" (.dict (c.set "baseUrl" url))
    | _ =>
      if d.contains "BaseUrl" then d.set "BaseUrl" url
      else
        let d1 := d.set "BaseUrl" url
        match d1.get? "indexerUrls" with
        | some (.list l) => d1.set "indexerUrls" (.list (.cons url l.tail))
        | _ =>
          match d1.get? "legacyUrls" with
          | some (.list l) => d1.set "legacyUrls" (.list (.cons url l.tail))
          | _ =>
            match d1.get? "fields" with
            | some (.list fl) => d1.set "fields" (.list (replaceFirstHttpField fl url))
            | _ => d1

/-! ## `add_tag_to_indexer` (lines 210–242) -/

/-- Lines 214–228 of `add_tag_to_indexer`: extract the tag id and convert it
with `int(...)`; `none` when the id is absent (`None`) or the conversion
raises. -/
def extractTagId (tag : PyVal) : Option Int :=
  let tagIdVal := match tag with | .dict td => dgetv td "id" | v => v
  match tagIdVal with
  | .none => Option.none
  | v => pyToInt v

/-- The tag label: `tag.get('label') or tag.get('name')` for a dict tag,
`None` otherwise. -/
def extractTagLabel (tag : PyVal) : PyVal :=
  match tag with
  | .dict td => pyOr (dgetv td "label") (dgetv td "name")
  | _ => .none

/-- `add_tag_to_indexer(indexer, tag)` (lines 210–242), returning the
mutated record. -/
def addTagToIndexer (d : PyDict) (tag : PyVal) : PyDict :=
  match extractTagId tag with
  | Option.none => d
  | some n =>
    let d1 :=
      match d.get? "tagIds" with
      | some (.list l) =>
        if pyListMem (.int n) l.toList then d
        else d.set "tagIds" (.list (l.append (.int n)))
      | some _ => d.set "tagIds" (.list (.cons (.int n) .nil))
      | Option.none => d.set "tagIds" (.list (.cons (.int n) .nil))
    let tagLabel := extractTagLabel tag
    if truthy tagLabel then
      let tagObj : PyVal := .dict (.cons "id" (.int n) (.cons "label" tagLabel .nil))
      match d1.get? "tags" with
      | some (.list l) =>
        if l.toList.any (fun t => match t with
            | .dict td => pbeq (dgetv td "id") (.int n)
            | _ => false) then d1
        else d1.set "tags" (.list (l.append tagObj))
      | some _ => d1.set "tags" (.list (.cons tagObj .nil))
      | Option.none => d1.set "tags" (.list (.cons tagObj .nil))
    else d1

/-! ## Test-response interpretation and `_perform_test_with_retries`
(rotatarr.py lines 382–433) -/

/-- The per-item success scan over a list-shaped test response
(`r.get('success') is True or r.get('status') == 'Success'`). -/
def listAnySuccess (l : PyList) : Bool :=
  l.toList.any (fun r => match r with
    | .dict rd => dgetv rd "success" == PyVal.bool true
        || pbeq (dgetv rd "status") (.str "Success")
    | _ => false)

/-- Success extraction used for the main test response (lines 389–398): a
dict with `success`/`isSuccess` identically `True`, or any boolean value
that is `True`; or a non-empty list with a successful item. -/
def okOfResp (res : PyVal) : Bool :=
  match res with
  | .dict rd =>
    (dgetv rd "success" == PyVal.bool true || dgetv rd "isSuccess" == PyVal.bool true)
      || rd.values.any (fun v => v == PyVal.bool true)
  | .list l => if l.length > 0 then listAnySuccess l else false
  | _ => false

/-- Success extraction used for the inner UI-payload response
(lines 410–417): like `okOfResp` but *without* the any-boolean fallback for
dicts, and without the non-emptiness requirement for lists. -/
def okOfRespUi (res : PyVal) : Bool :=
  match res with
  | .dict rd => dgetv rd "success" == PyVal.bool true || dgetv rd "isSuccess" == PyVal.bool true
  | .list l => listAnySuccess l
  | _ => false

/-- Transient-error classification (lines 425–427): the lowered message
contains `429`, `toomanyrequests` or `timeout`. -/
def transientB (e : String) : Bool :=
  let msg := strLower e
  strContains msg "429" || strContains msg "toomanyrequests" || strContains msg "timeout"

/-- The configuration surface of the engine (environment variables at the
top of `rotatarr.py`).  `forcedNames` is the already-parsed value of
`FORCE_TEST_INDEXERS` (split on commas, stripped, lowercased — line 373). -/
structure Config where
  TEST_RETRIES : Nat
  TEST_RETRY_DELAY_SEC : Nat
  TAG_TO_TRY : String
  TAG_FORCE : Bool
  DRY_RUN : Bool
  APPLY_TAG_SAVE_BEFORE_TEST : Bool
  forcedNames : List String
  INDEXER_MAX_ATTEMPTS : Nat
  INDEXER_COOLDOWN_MIN : Nat
  TEST_AS_UI : Bool
  INSPECT_INDEXERS : Bool

/-- Result of one `_perform_test_with_retries` call: the outcome (`.error`
models a Python exception propagating to the caller), the next value of the
test-call counter, and the backoff sleeps performed (in seconds). -/
structure PerformOut where
  result : Except String Bool
  callIdx : Nat
  sleeps : List Nat
deriving DecidableEq

/-- The non-raising branch of one attempt of `_perform_test_with_retries`
(lines 387–423): interpret the response; when not successful and
`TEST_AS_UI` is set, make one extra test call with the minimal UI payload
(its own exception is swallowed, lines 403–422). -/
def performOkBranch (cfg : Config) (test : Nat → PyVal → Except String PyVal)
    (testObj res : PyVal) (ci : Nat) (sleeps : List Nat) : PerformOut :=
  if okOfResp res then ⟨.ok true, ci + 1, sleeps⟩
  else if cfg.TEST_AS_UI then
    let uiPayload := buildUiTestPayload (match testObj with | .dict d => d | _ => .nil)
    if truthy (.dict uiPayload) && !pbeq (.dict uiPayload) testObj then
      match test (ci + 1) (.dict uiPayload) with
      | .ok uiRes => ⟨.ok (okOfRespUi uiRes), ci + 2, sleeps⟩
      | .error _ => ⟨.ok false, ci + 2, sleeps⟩
    else ⟨.ok false, ci + 1, sleeps⟩
  else ⟨.ok false, ci + 1, sleeps⟩

/-- The retry loop of `_perform_test_with_retries` (lines 385–433).
`remaining` is `TEST_RETRIES - attempt`, so `attempt < TEST_RETRIES` is
`remaining > 0`; the test oracle is indexed by a global call counter `ci`
so that different calls may behave differently. -/
def performGo (cfg : Config) (test : Nat → PyVal → Except String PyVal) (testObj : PyVal) :
    Nat → Nat → Nat → List Nat → PerformOut
  | 0, _attempt, ci, sleeps =>
    match test ci testObj with
    | .ok res => performOkBranch cfg test testObj res ci sleeps
    | .error e => ⟨.error e, ci + 1, sleeps⟩
  | r + 1, attempt, ci, sleeps =>
    match test ci testObj with
    | .ok res => performOkBranch cfg test testObj res ci sleeps
    | .error e =>
      if transientB e then
        performGo cfg test testObj r (attempt + 1) (ci + 1)
          (sleeps ++ [cfg.TEST_RETRY_DELAY_SEC * (attempt + 1)])
      else ⟨.error e, ci + 1, sleeps⟩

/-- `_perform_test_with_retries(client, test_obj, ref_id, label)`
(lines 382–433). -/
def performTestWithRetries (cfg : Config) (test : Nat → PyVal → Except String PyVal)
    (ci : Nat) (testObj : PyVal) : PerformOut :=
  performGo cfg test testObj cfg.TEST_RETRIES 0 ci []

/-- The inline retry loop of the candidate+tag trial (lines 534–545): same
backoff policy, but the successful raw response is returned for the caller
to interpret. -/
def inlineRetryGo (cfg : Config) (test : Nat → PyVal → Except String PyVal) (testObj : PyVal) :
    Nat → Nat → Nat → List Nat → (Except String PyVal) × Nat × List Nat
  | 0, _attempt, ci, sleeps =>
    match test ci testObj with
    | .ok res => (.ok res, ci + 1, sleeps)
    | .error e => (.error e, ci + 1, sleeps)
  | r + 1, attempt, ci, sleeps =>
    match test ci testObj with
    | .ok res => (.ok res, ci + 1, sleeps)
    | .error e =>
      if transientB e then
        inlineRetryGo cfg test testObj r (attempt + 1) (ci + 1)
          (sleeps ++ [cfg.TEST_RETRY_DELAY_SEC * (attempt + 1)])
      else (.error e, ci + 1, sleeps)

/-! ## The `run_once` sweep (lines 245–731)

The embedding takes the already-fetched indexer list and status list as
inputs (so it covers exactly the sweeps that do not abort at the listing
stage, lines 251–257) and threads an explicit engine state.  The remote
service is a deterministic oracle: `testIndexer` is indexed by a global
call counter so that successive test calls may behave differently;
`updateIndexer` calls are recorded in an update log.  `copy.deepcopy` on
immutable model values is the identity; the in-place mutation of the loop
variable `idx` (which happens only in the save-before-test paths, lines
621 and 676–677) is tracked explicitly, together with whether `idx` still
aliases the record held by the indexer list. -/

/-- The remote Prowlarr client as consumed by `run_once`.  `testIndexer`
may raise (`.error`); the other operations are modelled as total. -/
structure Client where
  testIndexer : Nat → PyVal → Except String PyVal
  findOrCreateTag : String → PyVal
  getIndexer : PyVal → PyDict

/-- Which trial variant produced a `fixed` entry (instrumentation only;
it records the program point of the `results['fixed'].append`, source
lines 456, 478, 501, 560, 583, 644 and 691 respectively). -/
inductive FixKind where
  | asIs | asIsUi | cand | candUi | candTag | candTagUi | origTag | candTag2
deriving DecidableEq

/-- One entry of `results['fixed']`:
`{'indexer': idx, 'new_base_url': ..., 'tag': ...}` plus the
instrumentation field `kind`. -/
structure FixEntry where
  indexer : PyDict
  newBaseUrl : PyVal
  tag : PyVal
  kind : FixKind
deriving DecidableEq

/-- Engine-global mutable state threaded through the sweep: the test-call
counter, backoff sleeps, the `update_indexer` call log, the in-memory
`indexer_state` dict and the last-saved (persisted) state file content. -/
structure EngSt where
  callIdx : Nat
  sleeps : List Nat
  updates : List (PyVal × PyVal)
  memState : PyDict
  fileState : PyDict
deriving DecidableEq

/-- The result buckets accumulated for one indexer. -/
structure IdxOut where
  fixed : List FixEntry
  skipped : List PyDict
  failed : List PyDict
deriving DecidableEq

/-- Per-indexer processing state: engine state, buckets so far, the current
binding of the loop variable `idx`, the current value of the record object
inside the indexer list, whether the two still alias each other, the
`updated` flag and the current `tag_obj`. -/
structure ProcSt where
  eng : EngSt
  out : IdxOut
  idxVal : PyDict
  listVal : PyDict
  aliased : Bool
  updated : Bool
  tagObj : PyVal
deriving DecidableEq

/-- `add_tag_to_indexer(idx, ...)`/`set_base_url(idx, ...)` applied to the
loop variable itself: mutates the list's record too while they alias. -/
def ProcSt.mutateIdx (st : ProcSt) (f : PyDict → PyDict) : ProcSt :=
  let v := f st.idxVal
  { st with idxVal := v, listVal := if st.aliased then v else st.listVal }

/-- `idx = client.get_indexer(idx_id)`: rebinds the loop variable; the
list's record object is no longer what `idx` names. -/
def ProcSt.rebindIdx (st : ProcSt) (v : PyDict) : ProcSt :=
  { st with idxVal := v, aliased := false }

/-- Record a `client.update_indexer(idx_id, payload)` call. -/
def ProcSt.logUpdate (st : ProcSt) (idxId payload : PyVal) : ProcSt :=
  { st with eng := { st.eng with updates := st.eng.updates ++ [(idxId, payload)] } }

/-- Merge a `PerformOut` into the engine state. -/
def ProcSt.absorb (st : ProcSt) (p : PerformOut) : ProcSt :=
  { st with eng := { st.eng with callIdx := p.callIdx, sleeps := st.eng.sleeps ++ p.sleeps } }

/-- Append to `results['fixed']`. -/
def ProcSt.addFixed (st : ProcSt) (e : FixEntry) : ProcSt :=
  { st with out := { st.out with fixed := st.out.fixed ++ [e] } }

/-- Append to `results['failed']`. -/
def ProcSt.addFailed (st : ProcSt) (d : PyDict) : ProcSt :=
  { st with out := { st.out with failed := st.out.failed ++ [d] } }

/-- Lines 457–463 / 479–485 / 561–567 / 645–651: clear any failure state
for the indexer and save the state file. -/
def ProcSt.clearState (st : ProcSt) (key : String) : ProcSt :=
  if st.eng.memState.contains key then
    let m := st.eng.memState.pop key
    { st with eng := { st.eng with memState := m, fileState := m } }
  else st

/-- A numeric Python value for arithmetic and comparisons (`int` or
`bool`); anything else raises `TypeError` at the use site. -/
def pyAsNum : PyVal → Option Int
  | .int n => some n
  | .bool b => some (if b then 1 else 0)
  | _ => Option.none

/-- The new value of a state entry after one failure bump
(lines 710–718): increment `consecutive_failures`; on reaching
`INDEXER_MAX_ATTEMPTS`, set `next_allowed_at := now + cooldown` and reset
the counter to `0`. -/
def bumpedEntry (cfg : Config) (now : Int) (idxState : PyDict) (n : Int) : PyDict :=
  if n + 1 ≥ (cfg.INDEXER_MAX_ATTEMPTS : Int) then
    (idxState.set "next_allowed_at"
      (.int (now + (cfg.INDEXER_COOLDOWN_MIN : Int) * 60))).set "consecutive_failures" (.int 0)
  else idxState.set "consecutive_failures" (.int (n + 1))

/-- Lines 708–723: increment the consecutive-failure counter, entering
cooldown when it reaches `INDEXER_MAX_ATTEMPTS`, and save the state file.
Raises (`.error`) when the stored entry or counter is not of the expected
shape (`AttributeError`/`TypeError` at lines 709–710). -/
def bumpFailState (cfg : Config) (now : Int) (st : ProcSt) (key : String) :
    Except String ProcSt :=
  let go : PyDict → Except String ProcSt := fun idxState =>
    match pyAsNum ((idxState.get? "consecutive_failures").getD (.int 0)) with
    | some n =>
      let m := st.eng.memState.set key (.dict (bumpedEntry cfg now idxState n))
      .ok { st with eng := { st.eng with memState := m, fileState := m } }
    | Option.none => .error "TypeError"
  match st.eng.memState.get? key with
  | some (.dict d) => go d
  | some _ => .error "AttributeError"
  | Option.none => go PyDict.nil

/-- Status map construction (line 254): a dict keyed by the Python value
`s.get('indexerId')` (insertion overwrites an equal key). -/
def svInsert (m : List (PyVal × PyDict)) (k : PyVal) (v : PyDict) : List (PyVal × PyDict) :=
  match m with
  | [] => [(k, v)]
  | (k', v') :: t => if pbeq k' k then (k, v) :: t else (k', v') :: svInsert t k v

/-- `status_map.get(idx_id)`. -/
def svLookup (m : List (PyVal × PyDict)) (k : PyVal) : Option PyDict :=
  match m with
  | [] => Option.none
  | (k', v') :: t => if pbeq k' k then some v' else svLookup t k

/-- The placeholder tag used in dry-run mode
(`{'id': -1, 'label': TAG_TO_TRY}`, lines 364, 529, 608, 610). -/
def placeholderTag (cfg : Config) : PyVal :=
  pd [("id", pi (-1)), ("label", ps cfg.TAG_TO_TRY)]

/-- Lines 526–529 / 603–610: obtain the tag object (dry-run uses the
placeholder). -/
def obtainTag (cfg : Config) (client : Client) : PyVal :=
  if !cfg.DRY_RUN then client.findOrCreateTag cfg.TAG_TO_TRY else placeholderTag cfg

/-- The as-is trial stage (lines 435–453): test the record as-is, then (on
failure) the UI-style minimal payload; exceptions from either test are
swallowed here.  Returns which variant succeeded, if any. -/
def asIsStage (cfg : Config) (client : Client) (st : ProcSt) : Option FixKind × ProcSt :=
  let testObj := st.idxVal
  let p1 := performTestWithRetries cfg client.testIndexer st.eng.callIdx (.dict testObj)
  let st := st.absorb p1
  let ok1 := match p1.result with | .ok b => b | .error _ => false
  if ok1 then (some .asIs, st)
  else
    let uiPayload := buildUiTestPayload testObj
    if truthy (.dict uiPayload) && !pbeq (.dict uiPayload) (.dict testObj) then
      let p2 := performTestWithRetries cfg client.testIndexer st.eng.callIdx (.dict uiPayload)
      let st := st.absorb p2
      match p2.result with
      | .ok true => (some .asIsUi, st)
      | _ => (Option.none, st)
    else (Option.none, st)

/-- Control signal produced by one candidate-loop iteration: `brk` leaves
the candidate loop (a successful trial `break`), `cont` proceeds to the
next candidate, `raised e` is an exception escaping to the per-indexer
handler (line 727). -/
inductive IterSig where
  | brk | cont | raised (e : String)
deriving DecidableEq

/-- The candidate+tag trial block (lines 521–705), executed inside the
candidate loop when a recovery tag is configured.  Returns `true` when it
`break`s out of the candidate loop (successful trial at lines 569 or 585);
`false` when control falls through to the failure bookkeeping at line 706.
All exceptions inside this block are caught locally (lines 594, 653, 696).
The inner tag-augmented candidate pass (lines 664–705) is
`innerCandLoop`. -/
def innerCandLoop (cfg : Config) (client : Client) (idxId : PyVal) (st : ProcSt) :
    List PyVal → ProcSt
  | [] => st
  | c2 :: rest =>
    -- lines 666–670
    let testObjTag := addTagToIndexer (setBaseUrl st.idxVal c2) st.tagObj
    -- lines 672–685: optionally persist tag+baseurl before testing
    let (savedOriginal, st, testObjTag) :=
      if cfg.APPLY_TAG_SAVE_BEFORE_TEST && !cfg.DRY_RUN then
        let so := st.idxVal
        let st := st.mutateIdx (fun d => setBaseUrl (addTagToIndexer d st.tagObj) c2)
        let st := st.logUpdate idxId (.dict st.idxVal)
        let st := st.rebindIdx (client.getIndexer idxId)
        (some so, st, st.idxVal)
      else (Option.none, st, testObjTag)
    let p := performTestWithRetries cfg client.testIndexer st.eng.callIdx (.dict testObjTag)
    let st := st.absorb p
    match p.result with
    | .error _ =>
      -- except at 696–705: revert when the tag+baseurl had been persisted
      let st :=
        if cfg.APPLY_TAG_SAVE_BEFORE_TEST && !cfg.DRY_RUN then
          match savedOriginal with
          | some so => (st.logUpdate idxId (.dict so)).rebindIdx (client.getIndexer idxId)
          | Option.none => st
        else st
      innerCandLoop cfg client idxId st rest
    | .ok ok =>
      if ok then
        -- lines 687–693 (note: no state clearing here)
        let st := if !cfg.DRY_RUN then st.logUpdate idxId (.dict testObjTag) else st
        let st := st.addFixed ⟨st.idxVal, c2, st.tagObj, .candTag2⟩
        { st with updated := true }
      else innerCandLoop cfg client idxId st rest

/-- Lines 611–663: the original-with-tag trial (with the optional
save-before-test persist and revert-on-exception), followed by the inner
tag-augmented candidate pass when still not updated (lines 664–705). -/
def origWithTagStage (cfg : Config) (client : Client) (idxId : PyVal) (stateKey : String)
    (baseUrls : List PyVal) (st : ProcSt) : ProcSt :=
  -- lines 612–614
  let testObjTag := addTagToIndexer st.idxVal st.tagObj
  -- lines 617–629
  let (savedOriginal, st, testObjTag) :=
    if cfg.APPLY_TAG_SAVE_BEFORE_TEST && !cfg.DRY_RUN then
      let so := st.idxVal
      let st := st.mutateIdx (fun d => addTagToIndexer d st.tagObj)
      let st := st.logUpdate idxId (.dict st.idxVal)
      let st := st.rebindIdx (client.getIndexer idxId)
      (some so, st, st.idxVal)
    else (Option.none, st, testObjTag)
  let p := performTestWithRetries cfg client.testIndexer st.eng.callIdx (.dict testObjTag)
  let st := st.absorb p
  let st :=
    match p.result with
    | .error _ =>
      -- except at 653–663: revert to the saved original
      if cfg.APPLY_TAG_SAVE_BEFORE_TEST && !cfg.DRY_RUN then
        match savedOriginal with
        | some so => (st.logUpdate idxId (.dict so)).rebindIdx (client.getIndexer idxId)
        | Option.none => st
      else st
    | .ok ok0 =>
      -- lines 632–639: UI payload retry (its exception is swallowed)
      let (ok, st) :=
        if !ok0 then
          let ui := buildUiTestPayload testObjTag
          if truthy (.dict ui) && !pbeq (.dict ui) (.dict testObjTag) then
            let p2 := performTestWithRetries cfg client.testIndexer st.eng.callIdx (.dict ui)
            let st := st.absorb p2
            match p2.result with
            | .ok b => (b, st)
            | .error _ => (false, st)
          else (false, st)
        else (true, st)
      -- lines 640–652 (note: sets `updated` but does not `break`)
      if ok then
        let st := if !cfg.DRY_RUN then st.logUpdate idxId (.dict testObjTag) else st
        let st := st.addFixed ⟨st.idxVal, PyVal.none, st.tagObj, .origTag⟩
        let st := st.clearState stateKey
        { st with updated := true }
      else st
  -- lines 664–705
  if !st.updated then innerCandLoop cfg client idxId st baseUrls else st

/-- Lines 521–610 head of the tag block: the candidate+tag trial with the
inline retry loop, the candidate+tag UI trial, then (when neither broke
out) the fall-through to the original-with-tag stage. -/
def tagBlock (cfg : Config) (client : Client) (idxId : PyVal) (stateKey : String)
    (baseUrls : List PyVal) (c : PyVal) (st : ProcSt) : Bool × ProcSt :=
  -- lines 522–530
  let testObjTag := setBaseUrl st.idxVal c
  let tagObjNew := obtainTag cfg client
  let st := { st with tagObj := tagObjNew }
  let testObjTag := addTagToIndexer testObjTag tagObjNew
  -- lines 531–593
  let (res, ci, sl) := inlineRetryGo cfg client.testIndexer (.dict testObjTag)
    cfg.TEST_RETRIES 0 st.eng.callIdx []
  let st := { st with eng := { st.eng with callIdx := ci, sleeps := st.eng.sleeps ++ sl } }
  let head : Bool × ProcSt :=
    match res with
    | .error _ => (false, st)   -- except at 594: log only, fall through
    | .ok testResTag =>
      if okOfResp testResTag then
        -- lines 556–569
        let st := if !cfg.DRY_RUN then st.logUpdate idxId (.dict testObjTag) else st
        let st := st.addFixed ⟨st.idxVal, c, tagObjNew, .candTag⟩
        let st := st.clearState stateKey
        (true, { st with updated := true })
      else
        -- lines 570–589 candidate+tag UI payload
        let uiCandTag := buildUiTestPayload testObjTag
        if truthy (.dict uiCandTag) && !pbeq (.dict uiCandTag) (.dict testObjTag) then
          let p := performTestWithRetries cfg client.testIndexer st.eng.callIdx (.dict uiCandTag)
          let st := st.absorb p
          match p.result with
          | .ok true =>
            -- lines 578–585 (updates with the full tagged record, then
            -- refetches; no state clearing here)
            let st := if !cfg.DRY_RUN then
                ((st.logUpdate idxId (.dict testObjTag)).rebindIdx (client.getIndexer idxId))
              else st
            let st := st.addFixed ⟨st.idxVal, c, tagObjNew, .candTagUi⟩
            (true, { st with updated := true })
          | _ => (false, st)
        else (false, st)
  match head with
  | (true, st) => (true, st)
  | (false, st) =>
    -- lines 602–610: the `tag_obj is None` refill
    let st := if st.tagObj = PyVal.none then { st with tagObj := obtainTag cfg client } else st
    (false, origWithTagStage cfg client idxId stateKey baseUrls st)

/-- One iteration of the candidate loop (lines 467–726): the plain
candidate trial, the candidate UI trial, the tag block, and — for
iterations that complete without `break`/`continue` — the failure
bookkeeping of lines 706–726 (state bump, revert to the original snapshot,
`failed` append). -/
def candIter (cfg : Config) (client : Client) (idxId : PyVal) (stateKey : String)
    (original : PyDict) (baseUrls : List PyVal) (now : Int) (c : PyVal) (st : ProcSt) :
    IterSig × ProcSt :=
  -- lines 468–471
  let testObj := setBaseUrl st.idxVal c
  let p := performTestWithRetries cfg client.testIndexer st.eng.callIdx (.dict testObj)
  let st := st.absorb p
  match p.result with
  | .error _ => (.cont, st)   -- lines 508–519: log and `continue`
  | .ok true =>
    -- lines 474–487
    let st := if !cfg.DRY_RUN then st.logUpdate idxId (.dict testObj) else st
    let st := st.addFixed ⟨st.idxVal, c, st.tagObj, .cand⟩
    let st := st.clearState stateKey
    (.brk, { st with updated := true })
  | .ok false =>
    -- lines 488–507: the candidate UI payload trial
    let uiStep : Bool × ProcSt :=
      let ui := buildUiTestPayload testObj
      if truthy (.dict ui) && !pbeq (.dict ui) (.dict testObj) then
        let p2 := performTestWithRetries cfg client.testIndexer st.eng.callIdx (.dict ui)
        let st := st.absorb p2
        match p2.result with
        | .ok true =>
          -- lines 497–503 (note: no state clearing here)
          let st := if !cfg.DRY_RUN then st.logUpdate idxId (.dict ui) else st
          let st := st.addFixed ⟨st.idxVal, c, st.tagObj, .candUi⟩
          (true, { st with updated := true })
        | _ => (false, st)
      else (false, st)
    match uiStep with
    | (true, st) => (.brk, st)
    | (false, st) =>
      -- lines 520–705
      let (brkTag, st) :=
        if cfg.TAG_TO_TRY ≠ "" then tagBlock cfg client idxId stateKey baseUrls c st
        else (false, st)
      if brkTag then (.brk, st)
      else
        -- lines 706–726
        match (if !st.updated then bumpFailState cfg now st stateKey else .ok st) with
        | .error e => (.raised e, st)
        | .ok st =>
          let st := if !cfg.DRY_RUN then st.logUpdate idxId (.dict original) else st
          (.cont, st.addFailed st.idxVal)

/-- The candidate loop of lines 467–726, driven by `candIter`; stops on
`break`, returns the exception when an iteration raised to the per-indexer
handler. -/
def candLoop (cfg : Config) (client : Client) (idxId : PyVal) (stateKey : String)
    (original : PyDict) (baseUrls : List PyVal) (now : Int) (st : ProcSt) :
    List PyVal → Option String × ProcSt
  | [] => (Option.none, st)
  | c :: rest =>
    match candIter cfg client idxId stateKey original baseUrls now c st with
    | (.brk, st) => (Option.none, st)
    | (.cont, st) => candLoop cfg client idxId stateKey original baseUrls now st rest
    | (.raised e, st) => (some e, st)

/-- Lines 368–379: the cooldown / forced-test gate.  `.ok true` means skip
(in cooldown, not forced); `.error` models the `AttributeError`/`TypeError`
hazards of lines 371, 374 and 376. -/
def cooldownGate (cfg : Config) (now : Int) (memState : PyDict) (idx : PyDict)
    (idxId : PyVal) (stateKey : String) : Except String Bool := do
  let naa ← (match memState.get? stateKey with
    | some (.dict d) => pure (dgetv d "next_allowed_at")
    | some _ => throw "AttributeError"
    | Option.none => pure PyVal.none)
  let nameV := dgetv idx "name"
  let forcedByName ← (if truthy nameV then
      match nameV with
      | .str s => pure (cfg.forcedNames.contains (strLower s))
      | _ => throw "AttributeError"
    else pure false)
  let forcedById := cfg.forcedNames.contains (pyStr idxId)
  if truthy naa then
    let n ← (match pyAsNum naa with | some n => pure n | Option.none => throw "TypeError")
    pure (decide (now < n) && !(forcedByName || forcedById))
  else pure false

/-- The body of the per-indexer `try` (lines 341–726) together with its
`except` handler (lines 727–729).  Returns the buckets appended for this
indexer, the new engine state, and the final value of the record object in
the indexer list. -/
def processBody (cfg : Config) (client : Client) (now : Int) (eng : EngSt)
    (idxId : PyVal) (idx : PyDict) : IdxOut × EngSt × PyDict :=
  -- line 349: original snapshot; line 350: candidates
  let original := idx
  let baseUrls := getAlternateBaseUrls idx
  -- lines 352–355
  if baseUrls.isEmpty then (⟨[], [idx], []⟩, eng, idx)
  else
    -- lines 356–365
    let st0 : ProcSt := ⟨eng, ⟨[], [], []⟩, idx, idx, true, false, PyVal.none⟩
    let st0 := if cfg.TAG_TO_TRY ≠ "" && cfg.TAG_FORCE then
        { st0 with tagObj := obtainTag cfg client }
      else st0
    let stateKey := pyStr idxId
    -- lines 368–379
    match cooldownGate cfg now eng.memState idx idxId stateKey with
    | .error _ => (⟨[], [], [idx]⟩, eng, idx)   -- handler at 727–729
    | .ok true => (⟨[], [idx], []⟩, eng, idx)   -- cooldown skip, line 378
    | .ok false =>
      -- lines 435–464: as-is (and as-is UI) trial
      match asIsStage cfg client st0 with
      | (some k, st) =>
        let st := st.addFixed ⟨st.idxVal, PyVal.none, PyVal.none, k⟩
        let st := st.clearState stateKey
        (st.out, st.eng, st.listVal)
      | (Option.none, st) =>
        -- lines 466–726
        match candLoop cfg client idxId stateKey original baseUrls now st baseUrls with
        | (some _, st) =>
          -- per-indexer handler, lines 727–729
          let st := st.addFailed st.idxVal
          (st.out, st.eng, st.listVal)
        | (Option.none, st) => (st.out, st.eng, st.listVal)

/-- Line 322: `idx.get('id') or idx.get('Id')`. -/
def idxIdOf (idx : PyDict) : PyVal := pyOr (dgetv idx "id") (dgetv idx "Id")

/-- Line 329: the authoritative failure signal —
`s and (s.get('mostRecentFailure') or s.get('disabledTill'))`. -/
def hasFailSignal (statusMap : List (PyVal × PyDict)) (idxId : PyVal) : Bool :=
  match svLookup statusMap idxId with
  | some sd => truthy (.dict sd)
      && (truthy (dgetv sd "mostRecentFailure") || truthy (dgetv sd "disabledTill"))
  | Option.none => false

/-- Processing of one entry of the indexer list (lines 321–729).  A
`.error` result is an exception raised by the heuristic error detector at
line 334, which sits *outside* the per-indexer `try` and therefore aborts
the whole sweep. -/
def processIndexer (cfg : Config) (client : Client) (statusMap : List (PyVal × PyDict))
    (now : Int) (eng : EngSt) (idx : PyDict) : Except String (IdxOut × EngSt × PyDict) :=
  -- lines 322–326
  let idxId := idxIdOf idx
  if !truthy idxId then .ok (⟨[], [idx], []⟩, eng, idx)
  else
    -- lines 328–336
    if hasFailSignal statusMap idxId then .ok (processBody cfg client now eng idxId idx)
    else
      match isIndexerError idx with
      | .error e => .error e   -- escapes run_once: line 334 is outside the try
      | .ok false => .ok (⟨[], [], []⟩, eng, idx)   -- line 336: silent `continue`
      | .ok true => .ok (processBody cfg client now eng idxId idx)
    -- (the non-dict check at 337–340 and the id recheck at 342–346 are
    -- unreachable here: entries are dicts and the id was already checked)

/-- Index of the first (structural) occurrence of `x` in a list of values
(used to state the first-seen-order property of the candidate generator). -/
def firstIdx : List PyVal → PyVal → Nat
  | [], _ => 0
  | a :: t, x => if a = x then 0 else firstIdx t x + 1

/-- `k in d and isinstance(d[k], dict)` — used to phrase branch conditions
of `set_base_url` in theorem statements. -/
def isDictAt (d : PyDict) (k : String) : Bool :=
  match d.get? k with
  | some (.dict _) => true
  | _ => false

/-- `k in d and isinstance(d[k], list)`. -/
def isListAt (d : PyDict) (k : String) : Bool :=
  match d.get? k with
  | some (.list _) => true
  | _ => false

/-- Keys are pairwise distinct (every real Python dict satisfies this; the
association-list model does not enforce it). -/
def keysNodupB : PyDict → Bool
  | .nil => true
  | .cons k _ t => !t.contains k && keysNodupB t

/-- A well-formed recovery-state entry: a dict whose
`consecutive_failures` (defaulting to `0`) is numeric. -/
def goodEntryB (v : PyVal) : Bool :=
  match v with
  | .dict e => (pyAsNum ((e.get? "consecutive_failures").getD (.int 0))).isSome
  | _ => false

/-- Well-formedness of a recovery-state dict used as a theorem hypothesis:
keys are distinct (as in every real Python dict) and every entry is a dict
whose `consecutive_failures` (defaulting to `0`) is numeric, so the
failure bookkeeping of lines 709–710 cannot raise. -/
def goodStateB (d : PyDict) : Bool :=
  keysNodupB d && d.values.all goodEntryB

/-- The result of one sweep: the three buckets, the final in-memory and
persisted recovery state, the `update_indexer` log, the backoff sleeps and
the final values of the records held by the indexer list. -/
structure SweepOut where
  fixed : List FixEntry
  skipped : List PyDict
  failed : List PyDict
  finalMemState : PyDict
  finalFileState : PyDict
  updates : List (PyVal × PyVal)
  sleeps : List Nat
  finalRecords : List PyDict
deriving DecidableEq

/-- The indexer `for` loop of `run_once` (lines 321–729). -/
def sweepGo (cfg : Config) (client : Client) (statusMap : List (PyVal × PyDict)) (now : Int) :
    List PyDict → EngSt → Except String (IdxOut × EngSt × List PyDict)
  | [], eng => .ok (⟨[], [], []⟩, eng, [])
  | idx :: rest, eng =>
    match processIndexer cfg client statusMap now eng idx with
    | .error e => .error e
    | .ok (out, eng, lv) =>
      match sweepGo cfg client statusMap now rest eng with
      | .error e => .error e
      | .ok (outRest, engF, lvs) =>
        .ok (⟨out.fixed ++ outRest.fixed, out.skipped ++ outRest.skipped,
              out.failed ++ outRest.failed⟩, engF, lv :: lvs)

/-- `run_once()` (lines 245–731) for a sweep whose indexer and status
listings succeeded (lines 251–257; a listing failure returns all-empty
buckets before any of the logic modelled here).  `state0` is the loaded
recovery state (line 320), `now` is `int(time.time())` (line 369).  A
`.error` result models an exception escaping `run_once` (only the
heuristic detector at line 334 can do so). -/
def runOnce (cfg : Config) (client : Client) (indexers : List PyDict)
    (statuses : List PyDict) (state0 : PyDict) (now : Int) : Except String SweepOut :=
  let statusMap := statuses.foldl (fun m sd => svInsert m (dgetv sd "indexerId") sd) []
  if cfg.INSPECT_INDEXERS then
    -- lines 260–317: inspection mode returns empty buckets early
    .ok ⟨[], [], [], state0, state0, [], [], indexers⟩
  else
    let eng0 : EngSt := ⟨0, [], [], state0, state0⟩
    match sweepGo cfg client statusMap now indexers eng0 with
    | .error e => .error e
    | .ok (out, eng, lvs) =>
      .ok ⟨out.fixed, out.skipped, out.failed, eng.memState, eng.fileState,
           eng.updates, eng.sleeps, lvs⟩


/-! ## Concrete example inputs

Closed example values (configurations, clients as deterministic oracles,
indexer records and recovery states) used by the counterexample and witness
theorems below; they are fixtures, not part of the embedding itself. -/

/-- Example configuration: no recovery tag, dry-run, `TEST_RETRIES = 0`,
`INDEXER_MAX_ATTEMPTS = 3`, `INDEXER_COOLDOWN_MIN = 60`. -/
def exCfg : Config := ⟨0, 2, "", false, true, false, [], 3, 60, false, false⟩

/-- Example configuration with recovery tag `"t"` and
`APPLY_TAG_SAVE_BEFORE_TEST` set, dry-run off. -/
def exCfgTag : Config := ⟨0, 2, "t", false, false, true, [], 3, 60, false, false⟩

/-- Example configuration with no tag and dry-run off. -/
def exCfgLive : Config := ⟨0, 2, "", false, false, false, [], 3, 60, false, false⟩

/-- An unsuccessful test response. -/
def exFail : PyVal := pd [("success", PyVal.bool false)]

/-- A successful test response. -/
def exOk : PyVal := pd [("success", PyVal.bool true)]

/-- The tag object the example client returns for label `"t"`. -/
def exTag : PyVal := pd [("id", pi 9), ("label", ps "t")]

/-- A healthy indexer record: no failure status, heuristic detector false. -/
def exHealthy : PyDict :=
  PyDict.ofList [("id", pi 1), ("implementation", ps "x"), ("name", ps "h")]

/-- A broken indexer record (id 2) with two candidate URLs. -/
def exBroken : PyDict :=
  PyDict.ofList [("id", pi 2), ("name", ps "b"), ("implementation", ps "x"),
    ("status", ps "error"), ("settings", pd [("baseUrl", ps "http://a")]),
    ("indexerUrls", pl [ps "http://a", ps "http://b"])]

/-- A broken indexer record (id 5) with a single candidate URL. -/
def exBroken5 : PyDict :=
  PyDict.ofList [("id", pi 5), ("name", ps "b5"), ("implementation", ps "x"),
    ("status", ps "error"), ("settings", pd [("baseUrl", ps "http://a")])]

/-- A client whose test calls always return the unsuccessful response. -/
def exClientFail : Client :=
  ⟨fun _ _ => .ok exFail, fun l => pd [("id", pi 9), ("label", ps l)], fun _ => .nil⟩

/-- A client whose test calls always return the successful response. -/
def exClientOk : Client :=
  ⟨fun _ _ => .ok exOk, fun l => pd [("id", pi 9), ("label", ps l)], fun _ => .nil⟩

/-- A client whose fourth test call (index 3) succeeds and all others fail. -/
def exClientThird : Client :=
  ⟨fun i _ => .ok (if i == 3 then exOk else exFail),
    fun l => pd [("id", pi 9), ("label", ps l)], fun _ => .nil⟩

/-- A client whose test calls always fail and whose `get_indexer` returns
`exBroken5` (used with `exCfgTag`). -/
def exClientTag : Client :=
  ⟨fun _ _ => .ok exFail, fun l => pd [("id", pi 9), ("label", ps l)],
    fun _ => exBroken5⟩

/-- A client whose test calls always raise. -/
def exClientRaise : Client :=
  ⟨fun _ _ => .error "boom", fun l => pd [("id", pi 9), ("label", ps l)],
    fun _ => exBroken5⟩

/-- A recovery state holding `consecutive_failures = 2` for indexer 2. -/
def exState2 : PyDict := PyDict.ofList [("2", pd [("consecutive_failures", pi 2)])]

/-- A recovery state holding `consecutive_failures = 2` for indexer 5. -/
def exState5 : PyDict := PyDict.ofList [("5", pd [("consecutive_failures", pi 2)])]

/-- A per-indexer processing state at the start of the candidate loop for
`exBroken5` under `exState5`. -/
def exProc5 : ProcSt :=
  ⟨⟨0, [], [], exState5, exState5⟩, ⟨[], [], []⟩, exBroken5, exBroken5, true,
    false, PyVal.none⟩

/-! # Theorems

First a collection of association-list lemmas about the dict model, then
one theorem (plus, where needed, a witness or counterexample) per claim. -/

theorem pyDictInduction (P : PyDict → Prop) (hnil : P .nil)
    (hcons : ∀ k v t, P t → P (.cons k v t)) : ∀ d, P d
  | .nil => hnil
  | .cons k v t => hcons k v t (pyDictInduction P hnil hcons t)

theorem pyListInduction (P : PyList → Prop) (hnil : P .nil)
    (hcons : ∀ v t, P t → P (.cons v t)) : ∀ l, P l
  | .nil => hnil
  | .cons v t => hcons v t (pyListInduction P hnil hcons t)

theorem get?_set_self (d : PyDict) (k : String) (v : PyVal) :
    (d.set k v).get? k = some v := by
  induction d using pyDictInduction with
  | hnil => simp [PyDict.set, PyDict.get?]
  | hcons k' w t ih =>
    by_cases h : k' = k <;> simp [PyDict.set, PyDict.get?, h, ih]

theorem get?_set_ne (d : PyDict) (k : String) (v : PyVal) (k' : String) (h : k' ≠ k) :
    (d.set k v).get? k' = d.get? k' := by
  have h' : ¬(k = k') := fun hh => h hh.symm
  induction d using pyDictInduction with
  | hnil => simp [PyDict.set, PyDict.get?, h']
  | hcons k2 w t ih =>
    by_cases h2 : k2 = k <;>
      simp [PyDict.set, PyDict.get?, h2, ih] <;>
      by_cases h3 : k2 = k' <;> simp_all

theorem contains_set_self (d : PyDict) (k : String) (v : PyVal) :
    (d.set k v).contains k = true := by
  induction d using pyDictInduction with
  | hnil => simp [PyDict.set, PyDict.contains]
  | hcons k' w t ih =>
    by_cases h : k' = k <;> simp [PyDict.set, PyDict.contains, h, ih]

theorem contains_set_ne (d : PyDict) (k : String) (v : PyVal) (k' : String) (h : k' ≠ k) :
    (d.set k v).contains k' = d.contains k' := by
  have h' : ¬(k = k') := fun hh => h hh.symm
  induction d using pyDictInduction with
  | hnil => simp [PyDict.set, PyDict.contains, h']
  | hcons k2 w t ih =>
    by_cases h2 : k2 = k <;>
      simp [PyDict.set, PyDict.contains, h2, ih] <;>
      by_cases h3 : k2 = k' <;> simp_all

theorem set_set_self (d : PyDict) (k : String) (v v' : PyVal) :
    (d.set k v).set k v' = d.set k v' := by
  induction d using pyDictInduction with
  | hnil => simp [PyDict.set]
  | hcons k' w t ih =>
    by_cases h : k' = k <;> simp [PyDict.set, h, ih]

theorem set_noop (d : PyDict) (k : String) (v : PyVal) (h : d.get? k = some v) :
    d.set k v = d := by
  induction d using pyDictInduction with
  | hnil => simp [PyDict.get?] at h
  | hcons k' w t ih =>
    by_cases h2 : k' = k
    · subst h2
      simp [PyDict.get?] at h
      simp [PyDict.set, h]
    · simp [PyDict.get?, h2] at h
      simp [PyDict.set, h2, ih h]

theorem contains_eq_isSome_get? (d : PyDict) (k : String) :
    d.contains k = (d.get? k).isSome := by
  induction d using pyDictInduction with
  | hnil => simp [PyDict.contains, PyDict.get?]
  | hcons k' w t ih =>
    by_cases h : k' = k <;> simp [PyDict.contains, PyDict.get?, h, ih]

theorem get?_eq_none_of_not_contains (d : PyDict) (k : String) (h : d.contains k = false) :
    d.get? k = Option.none := by
  have := contains_eq_isSome_get? d k
  rw [h] at this
  cases hg : d.get? k with
  | none => rfl
  | some v => rw [hg] at this; simp at this

theorem get?_set (d : PyDict) (k : String) (v : PyVal) (k' : String) :
    (d.set k v).get? k' = if k = k' then some v else d.get? k' := by
  by_cases h : k = k'
  · subst h
    simp [get?_set_self]
  · rw [get?_set_ne d k v k' (fun hh => h hh.symm), if_neg h]

theorem contains_set (d : PyDict) (k : String) (v : PyVal) (k' : String) :
    (d.set k v).contains k' = if k = k' then true else d.contains k' := by
  by_cases h : k = k'
  · subst h
    simp [contains_set_self]
  · rw [contains_set_ne d k v k' (fun hh => h hh.symm), if_neg h]

theorem get?_pop_self (d : PyDict) (k : String) (hnd : keysNodupB d = true) :
    (d.pop k).get? k = Option.none := by
  induction d using pyDictInduction with
  | hnil => simp [PyDict.pop, PyDict.get?]
  | hcons k' w t ih =>
    simp only [keysNodupB, Bool.and_eq_true, Bool.not_eq_true'] at hnd
    by_cases h : k' = k
    · subst h
      simpa [PyDict.pop] using get?_eq_none_of_not_contains t k' hnd.1
    · simp [PyDict.pop, PyDict.get?, h, ih hnd.2]

theorem toList_append (l : PyList) (v : PyVal) : (l.append v).toList = l.toList ++ [v] := by
  induction l using pyListInduction with
  | hnil => simp [PyList.append, PyList.toList]
  | hcons h t ih => simp [PyList.append, PyList.toList, ih]

theorem pbeq_int_self (n : Int) : pbeq (.int n) (.int n) = true := by simp [pbeq]

/-! ## C8 — idempotence of the two mutators -/

/-- The first stage of `add_tag_to_indexer` (the `tagIds` handling, lines
229–234) always leaves a `tagIds` list containing the tag id. -/
theorem addTag_stage1_mem (d : PyDict) (n : Int) :
    ∃ L, (match d.get? "tagIds" with
        | some (.list l) => if pyListMem (.int n) l.toList then d
            else d.set "tagIds" (.list (l.append (.int n)))
        | some _ => d.set "tagIds" (.list (.cons (.int n) .nil))
        | Option.none => d.set "tagIds" (.list (.cons (.int n) .nil))).get? "tagIds"
      = some (.list L) ∧ pyListMem (.int n) L.toList = true := by
  cases h1 : d.get? "tagIds" with
  | none =>
    exact ⟨_, get?_set_self d "tagIds" _, by simp [PyList.toList, pyListMem, pbeq_int_self]⟩
  | some v =>
    cases v with
    | list l =>
      dsimp only
      by_cases hmem : pyListMem (.int n) l.toList = true
      · rw [if_pos hmem]
        exact ⟨l, h1, hmem⟩
      · rw [if_neg hmem]
        refine ⟨_, get?_set_self d "tagIds" _, ?_⟩
        simp [toList_append, pyListMem, pbeq_int_self]
    | none =>
      exact ⟨_, get?_set_self d "tagIds" _, by simp [PyList.toList, pyListMem, pbeq_int_self]⟩
    | bool b =>
      exact ⟨_, get?_set_self d "tagIds" _, by simp [PyList.toList, pyListMem, pbeq_int_self]⟩
    | int m =>
      exact ⟨_, get?_set_self d "tagIds" _, by simp [PyList.toList, pyListMem, pbeq_int_self]⟩
    | str s =>
      exact ⟨_, get?_set_self d "tagIds" _, by simp [PyList.toList, pyListMem, pbeq_int_self]⟩
    | dict dd =>
      exact ⟨_, get?_set_self d "tagIds" _, by simp [PyList.toList, pyListMem, pbeq_int_self]⟩

theorem addTag_tagIds_mem (d : PyDict) (tag : PyVal) (n : Int)
    (hid : extractTagId tag = some n) :
    ∃ L, (addTagToIndexer d tag).get? "tagIds" = some (.list L) ∧
      pyListMem (.int n) L.toList = true := by
  simp only [addTagToIndexer, hid]
  generalize hd1 : (match d.get? "tagIds" with
      | some (.list l) => if pyListMem (.int n) l.toList then d
          else d.set "tagIds" (.list (l.append (.int n)))
      | some _ => d.set "tagIds" (.list (.cons (.int n) .nil))
      | Option.none => d.set "tagIds" (.list (.cons (.int n) .nil))) = d1
  obtain ⟨L, hL, hmem⟩ := hd1 ▸ addTag_stage1_mem d n
  have hne : ("tagIds" : String) ≠ "tags" := by decide
  by_cases hlab : truthy (extractTagLabel tag) = true
  · rw [if_pos hlab]
    cases h2 : d1.get? "tags" with
    | none => exact ⟨L, by dsimp only; rw [get?_set_ne _ _ _ _ hne, hL], hmem⟩
    | some v =>
      cases v with
      | list m =>
        dsimp only
        by_cases hany : m.toList.any (fun t => match t with
          | .dict td => pbeq (dgetv td "id") (.int n) | _ => false) = true
        · rw [if_pos hany]
          exact ⟨L, hL, hmem⟩
        · rw [if_neg hany]
          exact ⟨L, by rw [get?_set_ne _ _ _ _ hne, hL], hmem⟩
      | none => exact ⟨L, by dsimp only; rw [get?_set_ne _ _ _ _ hne, hL], hmem⟩
      | bool b => exact ⟨L, by dsimp only; rw [get?_set_ne _ _ _ _ hne, hL], hmem⟩
      | int mm => exact ⟨L, by dsimp only; rw [get?_set_ne _ _ _ _ hne, hL], hmem⟩
      | str s => exact ⟨L, by dsimp only; rw [get?_set_ne _ _ _ _ hne, hL], hmem⟩
      | dict dd => exact ⟨L, by dsimp only; rw [get?_set_ne _ _ _ _ hne, hL], hmem⟩
  · rw [if_neg hlab]
    exact ⟨L, hL, hmem⟩

/-- After `add_tag_to_indexer` with a usable id and a truthy label, the
`tags` field is a list containing an object with the tag's id
(lines 235–242). -/
theorem addTag_tags_mem (d : PyDict) (tag : PyVal) (n : Int)
    (hid : extractTagId tag = some n) (hlab : truthy (extractTagLabel tag) = true) :
    ∃ M, (addTagToIndexer d tag).get? "tags" = some (.list M) ∧
      M.toList.any (fun t => match t with
        | .dict td => pbeq (dgetv td "id") (.int n) | _ => false) = true := by
  simp only [addTagToIndexer, hid]
  generalize (match d.get? "tagIds" with
      | some (.list l) => if pyListMem (.int n) l.toList then d
          else d.set "tagIds" (.list (l.append (.int n)))
      | some _ => d.set "tagIds" (.list (.cons (.int n) .nil))
      | Option.none => d.set "tagIds" (.list (.cons (.int n) .nil))) = d1
  rw [if_pos hlab]
  have hobj : (fun t => match t with
        | PyVal.dict td => pbeq (dgetv td "id") (.int n) | _ => false)
      (PyVal.dict (.cons "id" (.int n) (.cons "label" (extractTagLabel tag) .nil))) = true := by
    simp [dgetv, PyDict.get?, pbeq_int_self]
  cases h2 : d1.get? "tags" with
  | none =>
    dsimp only
    refine ⟨_, get?_set_self _ _ _, ?_⟩
    simpa [PyList.toList] using hobj
  | some v =>
    cases v with
    | list m =>
      dsimp only
      by_cases hany : m.toList.any (fun t => match t with
        | .dict td => pbeq (dgetv td "id") (.int n) | _ => false) = true
      · rw [if_pos hany]
        exact ⟨m, h2, hany⟩
      · rw [if_neg hany]
        refine ⟨_, get?_set_self _ _ _, ?_⟩
        rw [toList_append]
        simpa [List.any_append, PyList.toList] using Or.inr hobj
    | none =>
      dsimp only
      refine ⟨_, get?_set_self _ _ _, ?_⟩
      simpa [PyList.toList] using hobj
    | bool b =>
      dsimp only
      refine ⟨_, get?_set_self _ _ _, ?_⟩
      simpa [PyList.toList] using hobj
    | int mm =>
      dsimp only
      refine ⟨_, get?_set_self _ _ _, ?_⟩
      simpa [PyList.toList] using hobj
    | str s =>
      dsimp only
      refine ⟨_, get?_set_self _ _ _, ?_⟩
      simpa [PyList.toList] using hobj
    | dict dd =>
      dsimp only
      refine ⟨_, get?_set_self _ _ _, ?_⟩
      simpa [PyList.toList] using hobj

/-- `add_tag_to_indexer` is the identity on a record that already carries
the tag in both representations. -/
theorem addTag_noop (A : PyDict) (tag : PyVal) (n : Int)
    (hid : extractTagId tag = some n)
    (hids : ∃ L, A.get? "tagIds" = some (.list L) ∧ pyListMem (.int n) L.toList = true)
    (htags : truthy (extractTagLabel tag) = true →
      ∃ M, A.get? "tags" = some (.list M) ∧ M.toList.any (fun t => match t with
        | .dict td => pbeq (dgetv td "id") (.int n) | _ => false) = true) :
    addTagToIndexer A tag = A := by
  obtain ⟨L, hL, hmem⟩ := hids
  simp only [addTagToIndexer, hid, hL]
  rw [if_pos hmem]
  by_cases hlab : truthy (extractTagLabel tag) = true
  · rw [if_pos hlab]
    obtain ⟨M, hM, hany⟩ := htags hlab
    rw [hM]
    dsimp only
    rw [if_pos hany]
  · rw [if_neg hlab]

theorem addTag_idem (d : PyDict) (tag : PyVal) :
    addTagToIndexer (addTagToIndexer d tag) tag = addTagToIndexer d tag := by
  cases hid : extractTagId tag with
  | none => simp [addTagToIndexer, hid]
  | some n =>
    exact addTag_noop _ tag n hid (addTag_tagIds_mem d tag n hid)
      (fun hlab => addTag_tags_mem d tag n hid hlab)

/-- Unfolding of `set_base_url` when neither a settings dict nor a config
dict is present (lines 189–207). -/
theorem setBaseUrl_unfold_noConfig (d : PyDict) (u : PyVal)
    (h1 : isDictAt d "settings" = false) (h2 : isDictAt d "config" = false) :
    setBaseUrl d u =
      (if d.contains "BaseUrl" = true then d.set "BaseUrl" u
       else
         match (d.set "BaseUrl" u).get? "indexerUrls" with
         | some (.list l) => (d.set "BaseUrl" u).set "indexerUrls" (.list (.cons u l.tail))
         | _ =>
           match (d.set "BaseUrl" u).get? "legacyUrls" with
           | some (.list l) => (d.set "BaseUrl" u).set "legacyUrls" (.list (.cons u l.tail))
           | _ =>
             match (d.set "BaseUrl" u).get? "fields" with
             | some (.list fl) =>
                 (d.set "BaseUrl" u).set "fields" (.list (replaceFirstHttpField fl u))
             | _ => d.set "BaseUrl" u) := by
  cases hs : d.get? "settings" <;>
    (try (rename_i v; cases v)) <;>
    first
      | (simp [isDictAt, hs] at h1; done)
      | (cases hc : d.get? "config" <;>
          (try (rename_i w; cases w)) <;>
          first
            | (simp [isDictAt, hc] at h2; done)
            | simp only [setBaseUrl, hs, hc])

/-- Unfolding of `set_base_url` into the config branch (lines 180–188). -/
theorem setBaseUrl_unfold_config (d : PyDict) (u : PyVal) (c : PyDict)
    (h1 : isDictAt d "settings" = false) (hc : d.get? "config" = some (.dict c)) :
    setBaseUrl d u =
      (if c.contains "baseUrl" = true then d.set "config" (.dict (c.set "baseUrl" u))
       else if c.contains "BaseUrl" = true then d.set "config" (.dict (c.set "BaseUrl" u))
       else if c.contains "url" = true then d.set "config" (.dict (c.set "url" u))
       else if c.contains "Url" = true then d.set "config" (.dict (c.set "Url" u))
       else d.set "config" (.dict (c.set "baseUrl" u))) := by
  cases hs : d.get? "settings" <;>
    (try (rename_i v; cases v)) <;>
    first
      | (simp [isDictAt, hs] at h1; done)
      | simp only [setBaseUrl, hs, hc]

/-- In the no-settings/no-config case, `set_base_url` leaves `settings` and
`config` untouched and always ends with `BaseUrl = url` (the fall-through
after line 193). -/
theorem setBaseUrl_toplevel_facts (d : PyDict) (u : PyVal)
    (h1 : isDictAt d "settings" = false) (h2 : isDictAt d "config" = false) :
    (setBaseUrl d u).get? "settings" = d.get? "settings" ∧
    (setBaseUrl d u).get? "config" = d.get? "config" ∧
    (setBaseUrl d u).get? "BaseUrl" = some u := by
  rw [setBaseUrl_unfold_noConfig d u h1 h2]
  by_cases hB : d.contains "BaseUrl" = true
  · rw [if_pos hB]
    refine ⟨?_, ?_, ?_⟩ <;> simp +decide [get?_set]
  · rw [if_neg hB]
    rw [get?_set_ne d "BaseUrl" u "indexerUrls" (by decide)]
    cases hiu : d.get? "indexerUrls" <;> (try (rename_i v; cases v)) <;>
      (try rw [get?_set_ne d "BaseUrl" u "legacyUrls" (by decide)]) <;>
      (try (cases hlu : d.get? "legacyUrls" <;> (try (rename_i w; cases w)))) <;>
      (try rw [get?_set_ne d "BaseUrl" u "fields" (by decide)]) <;>
      (try (cases hf : d.get? "fields" <;> (try (rename_i x; cases x)))) <;>
      (refine ⟨?_, ?_, ?_⟩ <;> simp +decide [get?_set])

/-- `set_base_url` is the identity when a settings dict is present whose
base-URL keys already hold `url`. -/
theorem setBaseUrl_noop_settings (r : PyDict) (u : PyVal) (s : PyDict)
    (h : r.get? "settings" = some (.dict s))
    (hOr : (s.contains "baseUrl" || s.contains "BaseUrl") = true)
    (h2 : s.contains "baseUrl" = true → s.get? "baseUrl" = some u)
    (h3 : s.contains "BaseUrl" = true → s.get? "BaseUrl" = some u) :
    setBaseUrl r u = r := by
  simp only [setBaseUrl, h]
  rw [if_pos hOr]
  by_cases hb : s.contains "baseUrl" = true
  · rw [if_pos hb, set_noop _ _ _ (h2 hb)]
    by_cases hB : s.contains "BaseUrl" = true
    · rw [if_pos hB, set_noop _ _ _ (h3 hB), set_noop _ _ _ h]
    · rw [if_neg hB, set_noop _ _ _ h]
  · rw [if_neg hb]
    by_cases hB : s.contains "BaseUrl" = true
    · rw [if_pos hB, set_noop _ _ _ (h3 hB), set_noop _ _ _ h]
    · rw [if_neg hB, set_noop _ _ _ h]

/-- `set_base_url` is the identity when (no settings dict and) a config
dict is present whose first base-URL-like key already holds `url`. -/
theorem setBaseUrl_noop_config (r : PyDict) (u : PyVal) (c : PyDict)
    (hset : isDictAt r "settings" = false)
    (h : r.get? "config" = some (.dict c))
    (hfirst : (c.contains "baseUrl" = true ∧ c.get? "baseUrl" = some u)
      ∨ (c.contains "baseUrl" = false ∧ c.contains "BaseUrl" = true
          ∧ c.get? "BaseUrl" = some u)
      ∨ (c.contains "baseUrl" = false ∧ c.contains "BaseUrl" = false
          ∧ c.contains "url" = true ∧ c.get? "url" = some u)
      ∨ (c.contains "baseUrl" = false ∧ c.contains "BaseUrl" = false
          ∧ c.contains "url" = false ∧ c.contains "Url" = true
          ∧ c.get? "Url" = some u)) :
    setBaseUrl r u = r := by
  rw [setBaseUrl_unfold_config r u c hset h]
  rcases hfirst with ⟨hc1, hv⟩ | ⟨hc1, hc2, hv⟩ | ⟨hc1, hc2, hc3, hv⟩ | ⟨hc1, hc2, hc3, hc4, hv⟩
  · rw [if_pos hc1, set_noop _ _ _ hv, set_noop _ _ _ h]
  · rw [if_neg (by simp [hc1]), if_pos hc2, set_noop _ _ _ hv, set_noop _ _ _ h]
  · rw [if_neg (by simp [hc1]), if_neg (by simp [hc2]), if_pos hc3,
        set_noop _ _ _ hv, set_noop _ _ _ h]
  · rw [if_neg (by simp [hc1]), if_neg (by simp [hc2]), if_neg (by simp [hc3]), if_pos hc4,
        set_noop _ _ _ hv, set_noop _ _ _ h]

/-- `set_base_url` is the identity when there is no settings or config dict
and the top-level `BaseUrl` already holds `url`. -/
theorem setBaseUrl_noop_toplevel (r : PyDict) (u : PyVal)
    (h1 : isDictAt r "settings" = false) (h2 : isDictAt r "config" = false)
    (h3 : r.get? "BaseUrl" = some u) :
    setBaseUrl r u = r := by
  rw [setBaseUrl_unfold_noConfig r u h1 h2,
      if_pos (by rw [contains_eq_isSome_get?, h3]; rfl), set_noop _ _ _ h3]

theorem setBaseUrl_idem_settings (d : PyDict) (u : PyVal) (s : PyDict)
    (hs : d.get? "settings" = some (.dict s)) :
    setBaseUrl (setBaseUrl d u) u = setBaseUrl d u := by
  by_cases hb : s.contains "baseUrl" = true
  · by_cases hB : s.contains "BaseUrl" = true
    · have hr : setBaseUrl d u
          = d.set "settings" (.dict ((s.set "baseUrl" u).set "BaseUrl" u)) := by
        simp only [setBaseUrl, hs]
        rw [if_pos (by simp [hb]), if_pos hb,
            if_pos (by rw [contains_set_ne _ _ _ _ (by decide)]; exact hB)]
      rw [hr]
      exact setBaseUrl_noop_settings _ u _ (get?_set_self _ _ _)
        (by simp +decide [contains_set])
        (fun _ => by simp +decide [get?_set])
        (fun _ => by simp +decide [get?_set])
    · have hr : setBaseUrl d u = d.set "settings" (.dict (s.set "baseUrl" u)) := by
        simp only [setBaseUrl, hs]
        rw [if_pos (by simp [hb]), if_pos hb,
            if_neg (by rw [contains_set_ne _ _ _ _ (by decide)]; exact hB)]
      rw [hr]
      exact setBaseUrl_noop_settings _ u _ (get?_set_self _ _ _)
        (by simp +decide [contains_set])
        (fun _ => by simp +decide [get?_set])
        (fun hBB => by
          rw [contains_set_ne _ _ _ _ (by decide)] at hBB
          exact absurd hBB hB)
  · by_cases hB : s.contains "BaseUrl" = true
    · have hr : setBaseUrl d u = d.set "settings" (.dict (s.set "BaseUrl" u)) := by
        simp only [setBaseUrl, hs]
        rw [if_pos (by simp [hB]), if_neg hb, if_pos hB]
      rw [hr]
      refine setBaseUrl_noop_settings _ u _ (get?_set_self _ _ _)
        (by simp +decide [contains_set]) ?_ (fun _ => by simp +decide [get?_set])
      intro hbb
      rw [contains_set_ne _ _ _ _ (by decide)] at hbb
      exact absurd hbb hb
    · have hr : setBaseUrl d u = d.set "settings" (.dict (s.set "baseUrl" u)) := by
        simp only [setBaseUrl, hs]
        rw [if_neg (by simp [hb, hB])]
      rw [hr]
      refine setBaseUrl_noop_settings _ u _ (get?_set_self _ _ _)
        (by simp +decide [contains_set])
        (fun _ => by simp +decide [get?_set]) ?_
      intro hBB
      rw [contains_set_ne _ _ _ _ (by decide)] at hBB
      exact absurd hBB hB

theorem setBaseUrl_idem_config (d : PyDict) (u : PyVal) (c : PyDict)
    (h1 : isDictAt d "settings" = false)
    (hc : d.get? "config" = some (.dict c)) :
    setBaseUrl (setBaseUrl d u) u = setBaseUrl d u := by
  have hset' : ∀ X : PyVal, isDictAt (d.set "config" X) "settings" = false := fun X => by
    have hgg : (d.set "config" X).get? "settings" = d.get? "settings" :=
      get?_set_ne _ _ _ _ (by decide)
    simp only [isDictAt, hgg]
    simp only [isDictAt] at h1
    exact h1
  rw [setBaseUrl_unfold_config d u c h1 hc]
  by_cases h01 : c.contains "baseUrl" = true
  · rw [if_pos h01]
    refine setBaseUrl_noop_config _ u _ (hset' _) (get?_set_self _ _ _) (Or.inl ⟨?_, ?_⟩)
    · simp +decide [contains_set]
    · simp +decide [get?_set]
  · rw [if_neg h01]
    have h01' : c.contains "baseUrl" = false := by simpa using h01
    by_cases h02 : c.contains "BaseUrl" = true
    · rw [if_pos h02]
      refine setBaseUrl_noop_config _ u _ (hset' _) (get?_set_self _ _ _)
        (Or.inr (Or.inl ⟨?_, ?_, ?_⟩))
      · simp +decide [contains_set, h01']
      · simp +decide [contains_set]
      · simp +decide [get?_set]
    · have h02' : c.contains "BaseUrl" = false := by simpa using h02
      rw [if_neg h02]
      by_cases h03 : c.contains "url" = true
      · rw [if_pos h03]
        refine setBaseUrl_noop_config _ u _ (hset' _) (get?_set_self _ _ _)
          (Or.inr (Or.inr (Or.inl ⟨?_, ?_, ?_, ?_⟩)))
        · simp +decide [contains_set, h01']
        · simp +decide [contains_set, h02']
        · simp +decide [contains_set]
        · simp +decide [get?_set]
      · have h03' : c.contains "url" = false := by simpa using h03
        rw [if_neg h03]
        by_cases h04 : c.contains "Url" = true
        · rw [if_pos h04]
          refine setBaseUrl_noop_config _ u _ (hset' _) (get?_set_self _ _ _)
            (Or.inr (Or.inr (Or.inr ⟨?_, ?_, ?_, ?_, ?_⟩)))
          · simp +decide [contains_set, h01']
          · simp +decide [contains_set, h02']
          · simp +decide [contains_set, h03']
          · simp +decide [contains_set]
          · simp +decide [get?_set]
        · rw [if_neg h04]
          refine setBaseUrl_noop_config _ u _ (hset' _) (get?_set_self _ _ _)
            (Or.inl ⟨?_, ?_⟩)
          · simp +decide [contains_set]
          · simp +decide [get?_set]

theorem setBaseUrl_idem_toplevel (d : PyDict) (u : PyVal)
    (h1 : isDictAt d "settings" = false) (h2 : isDictAt d "config" = false) :
    setBaseUrl (setBaseUrl d u) u = setBaseUrl d u := by
  obtain ⟨f1, f2, f3⟩ := setBaseUrl_toplevel_facts d u h1 h2
  refine setBaseUrl_noop_toplevel _ u ?_ ?_ f3
  · simp only [isDictAt, f1]
    simp only [isDictAt] at h1
    exact h1
  · simp only [isDictAt, f2]
    simp only [isDictAt] at h2
    exact h2

theorem setBaseUrl_idem (d : PyDict) (u : PyVal) :
    setBaseUrl (setBaseUrl d u) u = setBaseUrl d u := by
  cases hsv : d.get? "settings" <;> (try (rename_i v; cases v)) <;>
    first
      | exact setBaseUrl_idem_settings d u _ hsv
      | (have h1 : isDictAt d "settings" = false := by simp [isDictAt, hsv]
         cases hcv : d.get? "config" <;> (try (rename_i w; cases w)) <;>
           first
             | exact setBaseUrl_idem_config d u _ h1 hcv
             | exact setBaseUrl_idem_toplevel d u h1 (by simp [isDictAt, hcv]))

/-- **C8** (confirmed).  Both mutators are idempotent: calling
`set_base_url` twice with the same URL leaves the record in the same final
state as calling it once, and likewise `add_tag_to_indexer` with the same
tag (no duplicate tag ids or tag objects are introduced, since the second
call is the identity). -/
theorem C8_mutators_idempotent (d : PyDict) (u tag : PyVal) :
    setBaseUrl (setBaseUrl d u) u = setBaseUrl d u ∧
    addTagToIndexer (addTagToIndexer d tag) tag = addTagToIndexer d tag :=
  ⟨setBaseUrl_idem d u, addTag_idem d tag⟩

/-! ## C5 — which locations `set_base_url` rewrites

The claim says exactly one base-URL location is rewritten per call,
first-match-wins.  The source falls through after creating the top-level
`BaseUrl` key (line 193 has no `return`), so when there is no settings
dict, no config dict and no pre-existing `BaseUrl` key, the call *also*
rewrites the first element of `indexerUrls`/`legacyUrls` (or the first
HTTP-looking field value): two locations change. -/

/-- **C5** counterexample.  On
`{'id': 1, 'indexerUrls': ['http://a', 'http://b']}` a single
`set_base_url(..., 'http://u')` changes *two* of the claim's enumerated
locations: it creates the top-level `BaseUrl` field and rewrites the first
element of `indexerUrls`, contradicting "exactly one location is
rewritten ... all other locations keep their previous values". -/
theorem C5_counterexample :
    setBaseUrl (PyDict.ofList [("id", pi 1), ("indexerUrls", pl [ps "http://a", ps "http://b"])])
        (ps "http://u")
      = PyDict.ofList [("id", pi 1), ("indexerUrls", pl [ps "http://u", ps "http://b"]),
          ("BaseUrl", ps "http://u")]
    ∧ (setBaseUrl (PyDict.ofList [("id", pi 1), ("indexerUrls", pl [ps "http://a", ps "http://b"])])
        (ps "http://u")).get? "BaseUrl"
      ≠ (PyDict.ofList [("id", pi 1), ("indexerUrls", pl [ps "http://a", ps "http://b"])]).get? "BaseUrl"
    ∧ (setBaseUrl (PyDict.ofList [("id", pi 1), ("indexerUrls", pl [ps "http://a", ps "http://b"])])
        (ps "http://u")).get? "indexerUrls"
      ≠ (PyDict.ofList [("id", pi 1), ("indexerUrls", pl [ps "http://a", ps "http://b"])]).get? "indexerUrls" := by
  refine ⟨by decide, by decide, by decide⟩

/-- **C5** amended.  `set_base_url(record, url)` picks its target
first-match-wins in the order settings dict → config dict → top level, and:
within a settings dict it writes the `baseUrl` and/or `BaseUrl` keys (both
when both are present, creating `baseUrl` when neither is) and leaves every
other top-level key unchanged; within a config dict it writes exactly one
of `baseUrl`/`BaseUrl`/`url`/`Url` (first present, else creating `baseUrl`)
and leaves everything else unchanged; at top level, when a `BaseUrl` key
exists only it is rewritten, but when it does not exist the call creates
`BaseUrl` *and additionally* rewrites the first element of `indexerUrls`,
or else of `legacyUrls`, or else the first HTTP-looking field value. -/
theorem C5_amended (d : PyDict) (u : PyVal) :
    (∀ s, d.get? "settings" = some (.dict s) →
      (∀ k, k ≠ "settings" → (setBaseUrl d u).get? k = d.get? k) ∧
      ∃ s', (setBaseUrl d u).get? "settings" = some (.dict s') ∧
        (s.contains "baseUrl" = true → s'.get? "baseUrl" = some u) ∧
        (s.contains "BaseUrl" = true → s'.get? "BaseUrl" = some u) ∧
        (s.contains "baseUrl" = false → s.contains "BaseUrl" = false →
          s'.get? "baseUrl" = some u) ∧
        (∀ k, k ≠ "baseUrl" → k ≠ "BaseUrl" → s'.get? k = s.get? k))
    ∧ (∀ c, isDictAt d "settings" = false → d.get? "config" = some (.dict c) →
      (∀ k, k ≠ "config" → (setBaseUrl d u).get? k = d.get? k) ∧
      ∃ c', (setBaseUrl d u).get? "config" = some (.dict c') ∧
        ∃ ksel, ksel ∈ (["baseUrl", "BaseUrl", "url", "Url"] : List String) ∧
          c'.get? ksel = some u ∧ (∀ k, k ≠ ksel → c'.get? k = c.get? k))
    ∧ (isDictAt d "settings" = false → isDictAt d "config" = false →
        d.contains "BaseUrl" = true → setBaseUrl d u = d.set "BaseUrl" u)
    ∧ (isDictAt d "settings" = false → isDictAt d "config" = false →
        d.contains "BaseUrl" = false →
      ((∀ l, d.get? "indexerUrls" = some (.list l) →
          setBaseUrl d u = (d.set "BaseUrl" u).set "indexerUrls" (.list (.cons u l.tail)))
       ∧ (isListAt d "indexerUrls" = false → ∀ l, d.get? "legacyUrls" = some (.list l) →
          setBaseUrl d u = (d.set "BaseUrl" u).set "legacyUrls" (.list (.cons u l.tail)))
       ∧ (isListAt d "indexerUrls" = false → isListAt d "legacyUrls" = false →
          ∀ fl, d.get? "fields" = some (.list fl) →
          setBaseUrl d u = (d.set "BaseUrl" u).set "fields"
            (.list (replaceFirstHttpField fl u)))
       ∧ (isListAt d "indexerUrls" = false → isListAt d "legacyUrls" = false →
          isListAt d "fields" = false → setBaseUrl d u = d.set "BaseUrl" u))) := by
  refine ⟨fun s hs => ?_, fun c h1 hc => ?_, fun h1 h2 hB => ?_, fun h1 h2 hB => ?_⟩
  · -- settings branch
    by_cases hb : s.contains "baseUrl" = true
    · by_cases hBc : s.contains "BaseUrl" = true
      · have hr : setBaseUrl d u
            = d.set "settings" (.dict ((s.set "baseUrl" u).set "BaseUrl" u)) := by
          simp only [setBaseUrl, hs]
          rw [if_pos (by simp [hb]), if_pos hb,
              if_pos (by rw [contains_set_ne _ _ _ _ (by decide)]; exact hBc)]
        rw [hr]
        refine ⟨fun k hk => get?_set_ne _ _ _ _ hk, _, get?_set_self _ _ _, ?_, ?_, ?_, ?_⟩
        · intro _
          simp +decide [get?_set]
        · intro _
          simp +decide [get?_set]
        · intro hf _
          rw [hb] at hf
          cases hf
        · intro k hk1 hk2
          rw [get?_set_ne _ _ _ _ hk2, get?_set_ne _ _ _ _ hk1]
      · have hr : setBaseUrl d u = d.set "settings" (.dict (s.set "baseUrl" u)) := by
          simp only [setBaseUrl, hs]
          rw [if_pos (by simp [hb]), if_pos hb,
              if_neg (by rw [contains_set_ne _ _ _ _ (by decide)]; exact hBc)]
        rw [hr]
        refine ⟨fun k hk => get?_set_ne _ _ _ _ hk, _, get?_set_self _ _ _, ?_, ?_, ?_, ?_⟩
        · intro _
          simp +decide [get?_set]
        · intro hBB
          exact absurd hBB hBc
        · intro hf _
          rw [hb] at hf
          cases hf
        · intro k hk1 hk2
          exact get?_set_ne _ _ _ _ hk1
    · by_cases hBc : s.contains "BaseUrl" = true
      · have hr : setBaseUrl d u = d.set "settings" (.dict (s.set "BaseUrl" u)) := by
          simp only [setBaseUrl, hs]
          rw [if_pos (by simp [hBc]), if_neg hb, if_pos hBc]
        rw [hr]
        refine ⟨fun k hk => get?_set_ne _ _ _ _ hk, _, get?_set_self _ _ _, ?_, ?_, ?_, ?_⟩
        · intro hbb
          exact absurd hbb hb
        · intro _
          simp +decide [get?_set]
        · intro _ hBf
          rw [hBc] at hBf
          cases hBf
        · intro k hk1 hk2
          exact get?_set_ne _ _ _ _ hk2
      · have hr : setBaseUrl d u = d.set "settings" (.dict (s.set "baseUrl" u)) := by
          simp only [setBaseUrl, hs]
          rw [if_neg (by simp [hb, hBc])]
        rw [hr]
        refine ⟨fun k hk => get?_set_ne _ _ _ _ hk, _, get?_set_self _ _ _, ?_, ?_, ?_, ?_⟩
        · intro hbb
          exact absurd hbb hb
        · intro hBB
          exact absurd hBB hBc
        · intro _ _
          exact get?_set_self _ _ _
        · intro k hk1 hk2
          exact get?_set_ne _ _ _ _ hk1
  · -- config branch
    rw [setBaseUrl_unfold_config d u c h1 hc]
    by_cases h01 : c.contains "baseUrl" = true
    · rw [if_pos h01]
      exact ⟨fun k hk => get?_set_ne _ _ _ _ hk, _, get?_set_self _ _ _, "baseUrl",
        by simp, get?_set_self _ _ _, fun k hk => get?_set_ne _ _ _ _ hk⟩
    · rw [if_neg h01]
      by_cases h02 : c.contains "BaseUrl" = true
      · rw [if_pos h02]
        exact ⟨fun k hk => get?_set_ne _ _ _ _ hk, _, get?_set_self _ _ _, "BaseUrl",
          by simp, get?_set_self _ _ _, fun k hk => get?_set_ne _ _ _ _ hk⟩
      · rw [if_neg h02]
        by_cases h03 : c.contains "url" = true
        · rw [if_pos h03]
          exact ⟨fun k hk => get?_set_ne _ _ _ _ hk, _, get?_set_self _ _ _, "url",
            by simp, get?_set_self _ _ _, fun k hk => get?_set_ne _ _ _ _ hk⟩
        · rw [if_neg h03]
          by_cases h04 : c.contains "Url" = true
          · rw [if_pos h04]
            exact ⟨fun k hk => get?_set_ne _ _ _ _ hk, _, get?_set_self _ _ _, "Url",
              by simp, get?_set_self _ _ _, fun k hk => get?_set_ne _ _ _ _ hk⟩
          · rw [if_neg h04]
            exact ⟨fun k hk => get?_set_ne _ _ _ _ hk, _, get?_set_self _ _ _, "baseUrl",
              by simp, get?_set_self _ _ _, fun k hk => get?_set_ne _ _ _ _ hk⟩
  · -- top level with existing BaseUrl
    rw [setBaseUrl_unfold_noConfig d u h1 h2, if_pos hB]
  · -- top level without BaseUrl: the fall-through double write
    rw [setBaseUrl_unfold_noConfig d u h1 h2, if_neg (by simp [hB])]
    refine ⟨fun l hl => ?_, fun hniu l hl => ?_, fun hniu hnlu fl hf => ?_,
      fun hniu hnlu hnf => ?_⟩
    · rw [get?_set_ne d "BaseUrl" u "indexerUrls" (by decide), hl]
    · rw [get?_set_ne d "BaseUrl" u "indexerUrls" (by decide)]
      cases hiu : d.get? "indexerUrls" <;> (try (rename_i v; cases v)) <;>
        first
          | (simp [isListAt, hiu] at hniu; done)
          | rw [get?_set_ne d "BaseUrl" u "legacyUrls" (by decide), hl]
    · rw [get?_set_ne d "BaseUrl" u "indexerUrls" (by decide)]
      cases hiu : d.get? "indexerUrls" <;> (try (rename_i v; cases v)) <;>
        first
          | (simp [isListAt, hiu] at hniu; done)
          | (rw [get?_set_ne d "BaseUrl" u "legacyUrls" (by decide)]
             cases hlu : d.get? "legacyUrls" <;> (try (rename_i w; cases w)) <;>
               first
                 | (simp [isListAt, hlu] at hnlu; done)
                 | rw [get?_set_ne d "BaseUrl" u "fields" (by decide), hf])
    · rw [get?_set_ne d "BaseUrl" u "indexerUrls" (by decide)]
      cases hiu : d.get? "indexerUrls" <;> (try (rename_i v; cases v)) <;>
        first
          | (simp [isListAt, hiu] at hniu; done)
          | (rw [get?_set_ne d "BaseUrl" u "legacyUrls" (by decide)]
             cases hlu : d.get? "legacyUrls" <;> (try (rename_i w; cases w)) <;>
               first
                 | (simp [isListAt, hlu] at hnlu; done)
                 | (rw [get?_set_ne d "BaseUrl" u "fields" (by decide)]
                    cases hf : d.get? "fields" <;> (try (rename_i x; cases x)) <;>
                      first
                        | (simp [isListAt, hf] at hnf; done)
                        | rfl))

/-- Witness for C5 (amended), exercising the settings branch and the
pre-existing-`BaseUrl` top-level branch at concrete records. -/
theorem C5_amended_witness :
    setBaseUrl (PyDict.ofList [("BaseUrl", ps "http://o"), ("x", pi 7)]) (ps "u")
      = (PyDict.ofList [("BaseUrl", ps "http://o"), ("x", pi 7)]).set "BaseUrl" (ps "u") ∧
    (setBaseUrl (PyDict.ofList [("settings", pd [("baseUrl", ps "http://o")]), ("id", pi 3)])
        (ps "u")).get? "id"
      = (PyDict.ofList [("settings", pd [("baseUrl", ps "http://o")]), ("id", pi 3)]).get? "id" :=
  ⟨(C5_amended _ _).2.2.1 (by decide) (by decide) (by decide),
   ((C5_amended (PyDict.ofList [("settings", pd [("baseUrl", ps "http://o")]), ("id", pi 3)])
      (ps "u")).1 (PyDict.ofList [("baseUrl", ps "http://o")]) (by decide)).1 "id" (by decide)⟩

/-! ## C6 — `is_indexer_error` robustness (code bug)

The spec demands that the detector tolerate absent keys and unexpected
types without raising, but line 96 calls `.lower()` on `f.get('name')`
after only a truthiness check, so a `fields` entry whose `name` is a
truthy non-string (e.g. the integer `5`) raises `AttributeError`.  The
theorem evaluates the embedded detector at exactly such a record. -/

/-- **C6** (code bug evidence).  On the record
`{'implementation': 'x', 'fields': [{'name': 5}]}` — which reaches the
`fields` scan because `implementation` is set — `is_indexer_error` raises
`AttributeError` instead of returning a boolean. -/
theorem C6_is_indexer_error_raises :
    isIndexerError (PyDict.ofList
      [("implementation", ps "x"), ("fields", pl [pd [("name", pi 5)]])])
      = .error "AttributeError" := by decide

/-! ## C10 — `add_tag_to_indexer` with an unusable tag id -/

/-- **C10** (confirmed).  When the tag argument has no usable integer id —
the id is absent (`None`) or `int(...)` on it raises (modelled by
`extractTagId` returning `none`, lines 214–228) — `add_tag_to_indexer`
returns with the record unchanged: no `tagIds` or `tags` field is created
and existing ones are untouched. -/
theorem C10_addTag_no_id_noop (d : PyDict) (tag : PyVal)
    (h : extractTagId tag = Option.none) : addTagToIndexer d tag = d := by
  simp [addTagToIndexer, h]

/-- Witness for C10 at a concrete record and a tag whose id is a
non-numeric string. -/
theorem C10_addTag_no_id_noop_witness :
    extractTagId (pd [("id", ps "abc"), ("label", ps "t")]) = Option.none ∧
    addTagToIndexer (PyDict.ofList [("id", pi 1), ("tagIds", pl [pi 3])])
        (pd [("id", ps "abc"), ("label", ps "t")])
      = PyDict.ofList [("id", pi 1), ("tagIds", pl [pi 3])] :=
  ⟨by decide, C10_addTag_no_id_noop _ _ (by decide)⟩

/-! ## State-dict well-formedness lemmas (for the `run_once` theorems) -/

theorem get?_mem_values (d : PyDict) (k : String) (v : PyVal) (h : d.get? k = some v) :
    v ∈ d.values := by
  induction d using pyDictInduction with
  | hnil => simp [PyDict.get?] at h
  | hcons k' w t ih =>
    by_cases hk : k' = k
    · subst hk
      simp only [PyDict.get?, beq_self_eq_true, if_true, Option.some_inj] at h
      simp [PyDict.values, h]
    · simp only [PyDict.get?] at h
      rw [if_neg (by simpa using hk)] at h
      simp [PyDict.values, ih h]

theorem keysNodupB_set (d : PyDict) (k : String) (v : PyVal)
    (h : keysNodupB d = true) : keysNodupB (d.set k v) = true := by
  induction d using pyDictInduction with
  | hnil => simp [PyDict.set, keysNodupB, PyDict.contains]
  | hcons k' w t ih =>
    simp only [keysNodupB, Bool.and_eq_true, Bool.not_eq_true'] at h
    by_cases hk : k' = k
    · subst hk
      simp [PyDict.set, keysNodupB, h.1, h.2]
    · simp only [PyDict.set, hk]
      rw [if_neg (by simpa using hk)]
      simp only [keysNodupB, Bool.and_eq_true, Bool.not_eq_true']
      refine ⟨?_, ih h.2⟩
      rw [contains_set_ne t k v k' hk]
      exact h.1

theorem keysNodupB_pop (d : PyDict) (k : String)
    (h : keysNodupB d = true) : keysNodupB (d.pop k) = true := by
  induction d using pyDictInduction with
  | hnil => simp [PyDict.pop, keysNodupB]
  | hcons k' w t ih =>
    simp only [keysNodupB, Bool.and_eq_true, Bool.not_eq_true'] at h
    by_cases hk : k' = k
    · subst hk
      simp [PyDict.pop, h.2]
    · simp only [PyDict.pop]
      rw [if_neg (by simpa using hk)]
      simp only [keysNodupB, Bool.and_eq_true, Bool.not_eq_true']
      refine ⟨?_, ih h.2⟩
      -- popping cannot introduce the key
      have : ∀ e : PyDict, e.contains k' = false → (e.pop k).contains k' = false := by
        intro e
        induction e using pyDictInduction with
        | hnil => simp [PyDict.pop]
        | hcons k2 w2 t2 ih2 =>
          intro he
          simp only [PyDict.contains, Bool.or_eq_false_iff] at he
          by_cases h2 : k2 = k
          · simp [PyDict.pop, h2, he.2]
          · simp only [PyDict.pop]
            rw [if_neg (by simpa using h2)]
            simp [PyDict.contains, he.1, ih2 he.2]
      exact this t h.1

theorem mem_values_set (d : PyDict) (k : String) (v : PyVal) (w : PyVal)
    (h : w ∈ (d.set k v).values) : w = v ∨ w ∈ d.values := by
  induction d using pyDictInduction with
  | hnil => simpa [PyDict.set, PyDict.values] using h
  | hcons k' w' t ih =>
    by_cases hk : k' = k
    · subst hk
      simp only [PyDict.set, beq_self_eq_true, if_true, PyDict.values, List.mem_cons] at h
      rcases h with rfl | h
      · exact Or.inl rfl
      · exact Or.inr (by simp [PyDict.values, h])
    · simp only [PyDict.set] at h
      rw [if_neg (by simpa using hk)] at h
      simp only [PyDict.values, List.mem_cons] at h
      rcases h with rfl | h
      · exact Or.inr (by simp [PyDict.values])
      · rcases ih h with h | h
        · exact Or.inl h
        · exact Or.inr (by simp [PyDict.values, h])

theorem mem_values_pop (d : PyDict) (k : String) (w : PyVal)
    (h : w ∈ (d.pop k).values) : w ∈ d.values := by
  induction d using pyDictInduction with
  | hnil => simpa [PyDict.pop] using h
  | hcons k' w' t ih =>
    by_cases hk : k' = k
    · subst hk
      simp only [PyDict.pop, beq_self_eq_true, if_true] at h
      simp [PyDict.values, h]
    · simp only [PyDict.pop] at h
      rw [if_neg (by simpa using hk)] at h
      simp only [PyDict.values, List.mem_cons] at h
      rcases h with rfl | h
      · simp [PyDict.values]
      · simp [PyDict.values, ih h]

theorem goodStateB_set (d : PyDict) (k : String) (e : PyDict)
    (hg : goodStateB d = true) (he : goodEntryB (.dict e) = true) :
    goodStateB (d.set k (.dict e)) = true := by
  simp only [goodStateB, Bool.and_eq_true] at hg ⊢
  refine ⟨keysNodupB_set d k _ hg.1, ?_⟩
  rw [List.all_eq_true]
  intro v hv
  rcases mem_values_set d k _ v hv with rfl | hv
  · exact he
  · exact List.all_eq_true.mp hg.2 v hv

theorem goodStateB_pop (d : PyDict) (k : String) (hg : goodStateB d = true) :
    goodStateB (d.pop k) = true := by
  simp only [goodStateB, Bool.and_eq_true] at hg ⊢
  exact ⟨keysNodupB_pop d k hg.1,
    List.all_eq_true.mpr fun v hv => List.all_eq_true.mp hg.2 v (mem_values_pop d k v hv)⟩

theorem goodState_entry_shape (m : PyDict) (hg : goodStateB m = true) (k : String) :
    m.get? k = Option.none ∨
    ∃ e, m.get? k = some (.dict e) ∧
      ∃ n, pyAsNum ((e.get? "consecutive_failures").getD (.int 0)) = some n := by
  cases hget : m.get? k with
  | none => exact Or.inl rfl
  | some v =>
    have hv := List.all_eq_true.mp
      ((Bool.and_eq_true _ _ |>.mp (by simpa [goodStateB] using hg)).2) v
      (get?_mem_values m k v hget)
    cases v with
    | dict e =>
      refine Or.inr ⟨e, rfl, ?_⟩
      simp only [goodEntryB, Option.isSome_iff_exists] at hv
      exact hv
    | none => simp [goodEntryB] at hv
    | bool b => simp [goodEntryB] at hv
    | int n => simp [goodEntryB] at hv
    | str s => simp [goodEntryB] at hv
    | list l => simp [goodEntryB] at hv

theorem goodEntryB_bumpedEntry (cfg : Config) (now : Int) (e : PyDict) (n : Int) :
    goodEntryB (.dict (bumpedEntry cfg now e n)) = true := by
  simp only [bumpedEntry]
  by_cases h : n + 1 ≥ (cfg.INDEXER_MAX_ATTEMPTS : Int) <;>
    simp [h, goodEntryB, get?_set_self, pyAsNum]

/-- Under a well-formed state, the failure bump cannot raise, and its
result is the explicit `bumpedEntry` update of the stored entry. -/
theorem bumpFailState_ok (cfg : Config) (now : Int) (st : ProcSt) (key : String)
    (hg : goodStateB st.eng.memState = true) :
    ∃ (oldE : PyDict) (n : Int),
      (st.eng.memState.get? key = some (.dict oldE) ∨
        (st.eng.memState.get? key = Option.none ∧ oldE = .nil)) ∧
      pyAsNum ((oldE.get? "consecutive_failures").getD (.int 0)) = some n ∧
      bumpFailState cfg now st key = .ok { st with eng := { st.eng with
        memState := st.eng.memState.set key (.dict (bumpedEntry cfg now oldE n)),
        fileState := st.eng.memState.set key (.dict (bumpedEntry cfg now oldE n)) } } := by
  rcases goodState_entry_shape st.eng.memState hg key with hget | ⟨e, hget, n, hn⟩
  · refine ⟨.nil, 0, Or.inr ⟨hget, rfl⟩, by simp [PyDict.get?, pyAsNum], ?_⟩
    simp only [bumpFailState, hget]
    simp [PyDict.get?, pyAsNum]
  · refine ⟨e, n, Or.inl hget, hn, ?_⟩
    simp only [bumpFailState, hget, hn]


theorem performGo_fail (cfg : Config) (test : Nat → PyVal → Except String PyVal)
    (fr : PyVal) (hUI : cfg.TEST_AS_UI = false) (hfr : okOfResp fr = false)
    (ho : ∀ i q, test i q = .ok fr) (obj : PyVal) :
    ∀ (r a ci : Nat) (sl : List Nat),
      performGo cfg test obj r a ci sl = ⟨.ok false, ci + 1, sl⟩ := by
  intro r a ci sl
  cases r <;> simp [performGo, performOkBranch, ho, hfr, hUI]

theorem perform_fail (cfg : Config) (test : Nat → PyVal → Except String PyVal)
    (fr : PyVal) (hUI : cfg.TEST_AS_UI = false) (hfr : okOfResp fr = false)
    (ho : ∀ i q, test i q = .ok fr) (ci : Nat) (obj : PyVal) :
    performTestWithRetries cfg test ci obj = ⟨.ok false, ci + 1, []⟩ :=
  performGo_fail cfg test fr hUI hfr ho obj _ _ ci []

theorem asIsStage_fail (cfg : Config) (client : Client) (st : ProcSt) (fr : PyVal)
    (hUI : cfg.TEST_AS_UI = false) (hfr : okOfResp fr = false)
    (ho : ∀ i q, client.testIndexer i q = .ok fr) :
    ∃ ci', asIsStage cfg client st =
      (Option.none, { st with eng := { st.eng with callIdx := ci' } }) := by
  have hp := perform_fail cfg client.testIndexer fr hUI hfr ho
  by_cases hui : (truthy (.dict (buildUiTestPayload st.idxVal)) &&
      !pbeq (.dict (buildUiTestPayload st.idxVal)) (.dict st.idxVal)) = true
  · exact ⟨st.eng.callIdx + 2, by simp [asIsStage, hp, ProcSt.absorb, hui]⟩
  · exact ⟨st.eng.callIdx + 1, by simp [asIsStage, hp, ProcSt.absorb, hui]⟩

theorem clearState_get? (st : ProcSt) (key : String)
    (hnd : keysNodupB st.eng.memState = true) :
    (st.clearState key).eng.memState.get? key = Option.none := by
  unfold ProcSt.clearState
  by_cases hc : st.eng.memState.contains key = true
  · simp [hc, get?_pop_self _ _ hnd]
  · simp only [hc, Bool.false_eq_true, if_false]
    exact get?_eq_none_of_not_contains _ _ (by simpa using hc)

theorem candIter_noTag_allFail (cfg : Config) (client : Client) (idxId : PyVal)
    (key : String) (orig : PyDict) (bus0 : List PyVal) (now : Int) (fr : PyVal)
    (c : PyVal) (st : ProcSt) (e : PyDict) (cf : Int)
    (hUI : cfg.TEST_AS_UI = false) (hT : cfg.TAG_TO_TRY = "")
    (hfr : okOfResp fr = false)
    (ho : ∀ i q, client.testIndexer i q = .ok fr)
    (hupd : st.updated = false)
    (hget : st.eng.memState.get? key = some (.dict e))
    (hcf : e.get? "consecutive_failures" = some (.int cf)) :
    ∃ st', candIter cfg client idxId key orig bus0 now c st = (.cont, st') ∧
      st'.updated = false ∧
      st'.out.fixed = st.out.fixed ∧
      st'.out.skipped = st.out.skipped ∧
      st'.out.failed = st.out.failed ++ [st.idxVal] ∧
      st'.idxVal = st.idxVal ∧
      st'.listVal = st.listVal ∧
      st'.tagObj = st.tagObj ∧
      st'.eng.memState = st.eng.memState.set key (.dict (bumpedEntry cfg now e cf)) ∧
      st'.eng.fileState = st'.eng.memState := by
  have hp := perform_fail cfg client.testIndexer fr hUI hfr ho
  by_cases hui : (truthy (.dict (buildUiTestPayload (setBaseUrl st.idxVal c))) &&
      !pbeq (.dict (buildUiTestPayload (setBaseUrl st.idxVal c)))
        (.dict (setBaseUrl st.idxVal c))) = true <;>
  by_cases hdr : cfg.DRY_RUN = true <;>
  · refine ⟨(candIter cfg client idxId key orig bus0 now c st).2,
      ?_, ?_, ?_, ?_, ?_, ?_, ?_, ?_, ?_, ?_⟩ <;>
      simp [candIter, hp, hT, hupd, hui, hdr, ProcSt.absorb, ProcSt.logUpdate,
        ProcSt.addFailed, bumpFailState, hget, hcf, pyAsNum]

theorem bumpedEntry_cf (cfg : Config) (now : Int) (e : PyDict) (cf : Int)
    (h0 : 0 ≤ cf) (hlt : cf < (cfg.INDEXER_MAX_ATTEMPTS : Int)) :
    (bumpedEntry cfg now e cf).get? "consecutive_failures" =
      some (.int ((cf + 1) % (cfg.INDEXER_MAX_ATTEMPTS : Int))) := by
  unfold bumpedEntry
  by_cases h : cf + 1 ≥ (cfg.INDEXER_MAX_ATTEMPTS : Int)
  · rw [if_pos h, get?_set_self]
    have heq : cf + 1 = (cfg.INDEXER_MAX_ATTEMPTS : Int) := by omega
    rw [heq, Int.emod_self]
  · rw [if_neg h, get?_set_self, Int.emod_eq_of_lt (by omega) (by omega)]

theorem bumpedEntry_naa_reset (cfg : Config) (now : Int) (e : PyDict) (cf : Int)
    (h : cf + 1 ≥ (cfg.INDEXER_MAX_ATTEMPTS : Int)) :
    (bumpedEntry cfg now e cf).get? "next_allowed_at" =
      some (.int (now + (cfg.INDEXER_COOLDOWN_MIN : Int) * 60)) := by
  unfold bumpedEntry
  rw [if_pos h, get?_set_ne _ _ _ _ (by decide), get?_set_self]

theorem bumpedEntry_naa_keep (cfg : Config) (now : Int) (e : PyDict) (cf : Int)
    (h : ¬cf + 1 ≥ (cfg.INDEXER_MAX_ATTEMPTS : Int)) :
    (bumpedEntry cfg now e cf).get? "next_allowed_at" =
      e.get? "next_allowed_at" := by
  unfold bumpedEntry
  rw [if_neg h, get?_set_ne _ _ _ _ (by decide)]

theorem goodEntryB_of_cf (e : PyDict) (n : Int)
    (h : e.get? "consecutive_failures" = some (.int n)) : goodEntryB (.dict e) = true := by
  simp [goodEntryB, h, pyAsNum]

theorem candLoop_noTag_allFail (cfg : Config) (client : Client) (idxId : PyVal)
    (key : String) (orig : PyDict) (bus0 : List PyVal) (now : Int) (fr : PyVal)
    (hUI : cfg.TEST_AS_UI = false) (hT : cfg.TAG_TO_TRY = "")
    (hfr : okOfResp fr = false)
    (ho : ∀ i q, client.testIndexer i q = .ok fr)
    (hmax : 1 ≤ cfg.INDEXER_MAX_ATTEMPTS) :
    ∀ (bus : List PyVal) (st : ProcSt) (e : PyDict) (cf : Int),
      st.updated = false →
      goodStateB st.eng.memState = true →
      st.eng.fileState = st.eng.memState →
      st.eng.memState.get? key = some (.dict e) →
      e.get? "consecutive_failures" = some (.int cf) →
      0 ≤ cf → cf < (cfg.INDEXER_MAX_ATTEMPTS : Int) →
      ∃ e',
        (candLoop cfg client idxId key orig bus0 now st bus).1 = Option.none ∧
        (candLoop cfg client idxId key orig bus0 now st bus).2.out.fixed = st.out.fixed ∧
        (candLoop cfg client idxId key orig bus0 now st bus).2.out.skipped = st.out.skipped ∧
        (candLoop cfg client idxId key orig bus0 now st bus).2.out.failed
          = st.out.failed ++ List.replicate bus.length st.idxVal ∧
        (candLoop cfg client idxId key orig bus0 now st bus).2.idxVal = st.idxVal ∧
        (candLoop cfg client idxId key orig bus0 now st bus).2.listVal = st.listVal ∧
        (candLoop cfg client idxId key orig bus0 now st bus).2.eng.memState.get? key
          = some (.dict e') ∧
        (candLoop cfg client idxId key orig bus0 now st bus).2.eng.fileState
          = (candLoop cfg client idxId key orig bus0 now st bus).2.eng.memState ∧
        goodStateB (candLoop cfg client idxId key orig bus0 now st bus).2.eng.memState = true ∧
        e'.get? "consecutive_failures"
          = some (.int ((cf + bus.length) % (cfg.INDEXER_MAX_ATTEMPTS : Int))) ∧
        (cf + bus.length ≥ (cfg.INDEXER_MAX_ATTEMPTS : Int) →
          e'.get? "next_allowed_at"
            = some (.int (now + (cfg.INDEXER_COOLDOWN_MIN : Int) * 60))) ∧
        (cf + bus.length < (cfg.INDEXER_MAX_ATTEMPTS : Int) →
          e'.get? "next_allowed_at" = e.get? "next_allowed_at") := by
  intro bus
  induction bus with
  | nil =>
    intro st e cf hupd hg hsync hget hcf h0 hlt
    refine ⟨e, by simp [candLoop], by simp [candLoop], by simp [candLoop],
      by simp [candLoop], by simp [candLoop], by simp [candLoop],
      by simpa [candLoop] using hget, by simpa [candLoop] using hsync,
      by simpa [candLoop] using hg, ?_, ?_, ?_⟩
    · simpa [Int.emod_eq_of_lt h0 hlt] using hcf
    · intro h
      simp only [List.length_nil, Nat.cast_zero, add_zero] at h
      omega
    · intro _
      rfl
  | cons c rest ih =>
    intro st e cf hupd hg hsync hget hcf h0 hlt
    obtain ⟨st', heq, hupd', hfix', hskip', hfail', hidx', hlist', htag', hmem', hsync'⟩ :=
      candIter_noTag_allFail cfg client idxId key orig bus0 now fr c st e cf
        hUI hT hfr ho hupd hget hcf
    have hgetE : st'.eng.memState.get? key = some (.dict (bumpedEntry cfg now e cf)) := by
      rw [hmem']
      exact get?_set_self _ _ _
    have hmax0 : (0 : Int) < (cfg.INDEXER_MAX_ATTEMPTS : Int) := by exact_mod_cast hmax
    have hcf1 : (bumpedEntry cfg now e cf).get? "consecutive_failures"
        = some (.int ((cf + 1) % (cfg.INDEXER_MAX_ATTEMPTS : Int))) :=
      bumpedEntry_cf cfg now e cf h0 hlt
    have h0' : 0 ≤ (cf + 1) % (cfg.INDEXER_MAX_ATTEMPTS : Int) :=
      Int.emod_nonneg _ (ne_of_gt hmax0)
    have hlt' : (cf + 1) % (cfg.INDEXER_MAX_ATTEMPTS : Int) < (cfg.INDEXER_MAX_ATTEMPTS : Int) :=
      Int.emod_lt_of_pos _ hmax0
    have hg' : goodStateB st'.eng.memState = true := by
      rw [hmem']
      exact goodStateB_set _ _ _ hg (goodEntryB_of_cf _ _ hcf1)
    obtain ⟨e', h1, h2, h3, h4, h5, h6, h7, h8, h9, h10, h11, h12⟩ :=
      ih st' (bumpedEntry cfg now e cf) ((cf + 1) % (cfg.INDEXER_MAX_ATTEMPTS : Int))
        hupd' hg' hsync' hgetE hcf1 h0' hlt'
    have hstep : candLoop cfg client idxId key orig bus0 now st (c :: rest)
        = candLoop cfg client idxId key orig bus0 now st' rest := by
      simp only [candLoop, heq]
    rw [hstep]
    refine ⟨e', h1, h2.trans hfix', h3.trans hskip', ?_, h5.trans hidx', h6.trans hlist',
      h7, h8, h9, ?_, ?_, ?_⟩
    · rw [h4, hfail', hidx', List.length_cons, List.replicate_succ, List.append_assoc]
      rfl
    · rw [h10]
      have hmodeq : ((cf + 1) % (cfg.INDEXER_MAX_ATTEMPTS : Int) + (rest.length : Int))
          % (cfg.INDEXER_MAX_ATTEMPTS : Int)
          = (cf + ((c :: rest).length : Nat)) % (cfg.INDEXER_MAX_ATTEMPTS : Int) := by
        conv_lhs => rw [Int.add_emod, Int.emod_emod_of_dvd _ dvd_rfl, ← Int.add_emod]
        have harith : cf + 1 + (rest.length : Int) = cf + (((c :: rest).length : Nat) : Int) := by
          simp [List.length_cons]
          ring
        rw [harith]
      rw [hmodeq]
    · intro h
      by_cases hrst : cf + 1 ≥ (cfg.INDEXER_MAX_ATTEMPTS : Int)
      · have hbn := bumpedEntry_naa_reset cfg now e cf hrst
        rcases le_or_lt (cfg.INDEXER_MAX_ATTEMPTS : Int)
            ((cf + 1) % (cfg.INDEXER_MAX_ATTEMPTS : Int) + (rest.length : Int)) with hge | hlt2
        · exact h11 hge
        · rw [h12 hlt2, hbn]
      · have hmod : (cf + 1) % (cfg.INDEXER_MAX_ATTEMPTS : Int) = cf + 1 :=
          Int.emod_eq_of_lt (by omega) (by omega)
        apply h11
        rw [hmod]
        simp only [List.length_cons, Nat.cast_add, Nat.cast_one] at h
        omega
    · intro h
      simp only [List.length_cons, Nat.cast_add, Nat.cast_one] at h
      have hnr : ¬cf + 1 ≥ (cfg.INDEXER_MAX_ATTEMPTS : Int) := by
        have : (0 : Int) ≤ (rest.length : Int) := Int.natCast_nonneg _
        omega
      have hmod : (cf + 1) % (cfg.INDEXER_MAX_ATTEMPTS : Int) = cf + 1 :=
        Int.emod_eq_of_lt (by omega) (by omega)
      have hkeep := bumpedEntry_naa_keep cfg now e cf hnr
      rw [← hkeep]
      apply h12
      rw [hmod]
      omega

theorem processBody_noTag_allFail (cfg : Config) (client : Client) (idxId : PyVal)
    (idx : PyDict) (eng : EngSt) (now : Int) (fr : PyVal) (e : PyDict) (cf : Int)
    (hUI : cfg.TEST_AS_UI = false) (hT : cfg.TAG_TO_TRY = "")
    (hfr : okOfResp fr = false)
    (ho : ∀ i q, client.testIndexer i q = .ok fr)
    (hmax : 1 ≤ cfg.INDEXER_MAX_ATTEMPTS)
    (hbus : (getAlternateBaseUrls idx).isEmpty = false)
    (hgate : cooldownGate cfg now eng.memState idx idxId (pyStr idxId) = .ok false)
    (hg : goodStateB eng.memState = true)
    (hsync : eng.fileState = eng.memState)
    (hget : eng.memState.get? (pyStr idxId) = some (.dict e))
    (hcf : e.get? "consecutive_failures" = some (.int cf))
    (h0 : 0 ≤ cf) (hlt : cf < (cfg.INDEXER_MAX_ATTEMPTS : Int)) :
    ∃ (out : IdxOut) (eng' : EngSt) (lv : PyDict) (e' : PyDict),
      processBody cfg client now eng idxId idx = (out, eng', lv) ∧
      out.fixed = [] ∧
      out.skipped = [] ∧
      out.failed = List.replicate (getAlternateBaseUrls idx).length idx ∧
      lv = idx ∧
      eng'.memState.get? (pyStr idxId) = some (.dict e') ∧
      eng'.fileState = eng'.memState ∧
      goodStateB eng'.memState = true ∧
      e'.get? "consecutive_failures"
        = some (.int ((cf + (getAlternateBaseUrls idx).length)
            % (cfg.INDEXER_MAX_ATTEMPTS : Int))) ∧
      (cf + (getAlternateBaseUrls idx).length ≥ (cfg.INDEXER_MAX_ATTEMPTS : Int) →
        e'.get? "next_allowed_at"
          = some (.int (now + (cfg.INDEXER_COOLDOWN_MIN : Int) * 60))) ∧
      (cf + (getAlternateBaseUrls idx).length < (cfg.INDEXER_MAX_ATTEMPTS : Int) →
        e'.get? "next_allowed_at" = e.get? "next_allowed_at") := by
  obtain ⟨ci', hAs⟩ := asIsStage_fail cfg client
    ⟨eng, ⟨[], [], []⟩, idx, idx, true, false, PyVal.none⟩ fr hUI hfr ho
  obtain ⟨e', k1, k2, k3, k4, k5, k6, k7, k8, k9, k10, k11, k12⟩ :=
    candLoop_noTag_allFail cfg client idxId (pyStr idxId) idx (getAlternateBaseUrls idx) now fr
      hUI hT hfr ho hmax (getAlternateBaseUrls idx)
      ⟨{ eng with callIdx := ci' }, ⟨[], [], []⟩, idx, idx, true, false, PyVal.none⟩
      e cf rfl hg hsync hget hcf h0 hlt
  rcases hCL : candLoop cfg client idxId (pyStr idxId) idx (getAlternateBaseUrls idx) now
      ⟨{ eng with callIdx := ci' }, ⟨[], [], []⟩, idx, idx, true, false, PyVal.none⟩
      (getAlternateBaseUrls idx) with ⟨o, X⟩
  rw [hCL] at k1 k2 k3 k4 k6 k7 k8 k9
  simp only [] at k1 k2 k3 k4 k6 k7 k8 k9
  subst k1
  refine ⟨X.out, X.eng, X.listVal, e', ?_, k2, k3, k4, k6, k7, k8, k9, k10, k11, k12⟩
  simp [processBody, hbus, hT, hgate, hAs, hCL]

theorem runOnce_noTag_allFail (cfg : Config) (client : Client) (idx : PyDict)
    (statuses : List PyDict) (state0 : PyDict) (now : Int) (fr : PyVal)
    (e : PyDict) (cf : Int)
    (hUI : cfg.TEST_AS_UI = false) (hT : cfg.TAG_TO_TRY = "")
    (hfr : okOfResp fr = false)
    (ho : ∀ i q, client.testIndexer i q = .ok fr)
    (hmax : 1 ≤ cfg.INDEXER_MAX_ATTEMPTS)
    (hIN : cfg.INSPECT_INDEXERS = false)
    (hid : truthy (idxIdOf idx) = true)
    (hsig : hasFailSignal (statuses.foldl (fun m sd => svInsert m (dgetv sd "indexerId") sd) [])
        (idxIdOf idx) = true ∨
      (hasFailSignal (statuses.foldl (fun m sd => svInsert m (dgetv sd "indexerId") sd) [])
        (idxIdOf idx) = false ∧ isIndexerError idx = .ok true))
    (hbus : (getAlternateBaseUrls idx).isEmpty = false)
    (hgate : cooldownGate cfg now state0 idx (idxIdOf idx) (pyStr (idxIdOf idx)) = .ok false)
    (hg : goodStateB state0 = true)
    (hget : state0.get? (pyStr (idxIdOf idx)) = some (.dict e))
    (hcf : e.get? "consecutive_failures" = some (.int cf))
    (h0 : 0 ≤ cf) (hlt : cf < (cfg.INDEXER_MAX_ATTEMPTS : Int)) :
    ∃ (out : SweepOut) (e' : PyDict),
      runOnce cfg client [idx] statuses state0 now = .ok out ∧
      out.fixed = [] ∧
      out.skipped = [] ∧
      out.failed = List.replicate (getAlternateBaseUrls idx).length idx ∧
      out.finalRecords = [idx] ∧
      out.finalMemState.get? (pyStr (idxIdOf idx)) = some (.dict e') ∧
      out.finalFileState = out.finalMemState ∧
      e'.get? "consecutive_failures"
        = some (.int ((cf + (getAlternateBaseUrls idx).length)
            % (cfg.INDEXER_MAX_ATTEMPTS : Int))) ∧
      (cf + (getAlternateBaseUrls idx).length ≥ (cfg.INDEXER_MAX_ATTEMPTS : Int) →
        e'.get? "next_allowed_at"
          = some (.int (now + (cfg.INDEXER_COOLDOWN_MIN : Int) * 60))) ∧
      (cf + (getAlternateBaseUrls idx).length < (cfg.INDEXER_MAX_ATTEMPTS : Int) →
        e'.get? "next_allowed_at" = e.get? "next_allowed_at") := by
  obtain ⟨out, eng', lv, e', p1, p2, p3, p4, p5, p6, p7, p8, p9, p10, p11⟩ :=
    processBody_noTag_allFail cfg client (idxIdOf idx) idx ⟨0, [], [], state0, state0⟩ now fr e cf
      hUI hT hfr ho hmax hbus hgate hg rfl hget hcf h0 hlt
  have hPI : processIndexer cfg client
      (statuses.foldl (fun m sd => svInsert m (dgetv sd "indexerId") sd) []) now
      ⟨0, [], [], state0, state0⟩ idx = .ok (out, eng', lv) := by
    rcases hsig with hsig | ⟨hns, hie⟩
    · simp [processIndexer, hid, hsig, p1]
    · simp [processIndexer, hid, hns, hie, p1]
  have hsweep : sweepGo cfg client
      (statuses.foldl (fun m sd => svInsert m (dgetv sd "indexerId") sd) []) now [idx]
      ⟨0, [], [], state0, state0⟩
      = .ok (⟨out.fixed, out.skipped, out.failed⟩, eng', [lv]) := by
    simp [sweepGo, hPI]
  refine ⟨⟨out.fixed, out.skipped, out.failed, eng'.memState, eng'.fileState,
      eng'.updates, eng'.sleeps, [lv]⟩, e', ?_, p2, p3, p4, by rw [p5], p6, p7, p9, p10, p11⟩
  simp [runOnce, hIN, hsweep]

theorem clearState_file_get? (st : ProcSt) (key : String)
    (hnd : keysNodupB st.eng.memState = true)
    (hsync : st.eng.fileState = st.eng.memState) :
    (st.clearState key).eng.fileState.get? key = Option.none := by
  unfold ProcSt.clearState
  by_cases hc : st.eng.memState.contains key = true
  · simp [hc, get?_pop_self _ _ hnd]
  · simp only [hc, Bool.false_eq_true, if_false]
    rw [hsync]
    exact get?_eq_none_of_not_contains _ _ (by simpa using hc)

theorem clearState_out (st : ProcSt) (key : String) : (st.clearState key).out = st.out := by
  unfold ProcSt.clearState
  split <;> rfl

theorem clearState_idxVal (st : ProcSt) (key : String) :
    (st.clearState key).idxVal = st.idxVal := by
  unfold ProcSt.clearState
  split <;> rfl

theorem clearState_listVal (st : ProcSt) (key : String) :
    (st.clearState key).listVal = st.listVal := by
  unfold ProcSt.clearState
  split <;> rfl

theorem clearState_tagObj (st : ProcSt) (key : String) :
    (st.clearState key).tagObj = st.tagObj := by
  unfold ProcSt.clearState
  split <;> rfl

theorem bumpFailState_frame (cfg : Config) (now : Int) (st : ProcSt) (key : String)
    (st' : ProcSt) (h : bumpFailState cfg now st key = .ok st') :
    st'.out = st.out ∧ st'.idxVal = st.idxVal ∧ st'.listVal = st.listVal ∧
      st'.updated = st.updated ∧ st'.tagObj = st.tagObj := by
  simp only [bumpFailState] at h
  split at h
  · split at h
    · injection h with h
      subst h
      exact ⟨rfl, rfl, rfl, rfl, rfl⟩
    · cases h
  · cases h
  · split at h
    · injection h with h
      subst h
      exact ⟨rfl, rfl, rfl, rfl, rfl⟩
    · cases h

/-- Claim C2, corrected: when the plain-candidate trial succeeds
(lines 474-487), the iteration breaks out of the candidate loop, the entry is
appended to `fixed`, and afterwards neither the in-memory nor the persisted
recovery state contains the indexer's key.  The cleared-on-success guarantee
does *not* extend to the candidate-UI-payload success of lines 497-503 (see
the counterexample). -/
theorem C2_amended (cfg : Config) (client : Client) (idxId : PyVal) (key : String)
    (orig : PyDict) (bus0 : List PyVal) (now : Int) (c : PyVal) (st : ProcSt)
    (hnd : keysNodupB st.eng.memState = true)
    (hsync : st.eng.fileState = st.eng.memState)
    (hres : (performTestWithRetries cfg client.testIndexer st.eng.callIdx
      (.dict (setBaseUrl st.idxVal c))).result = .ok true) :
    ∃ st', candIter cfg client idxId key orig bus0 now c st = (.brk, st') ∧
      st'.eng.memState.get? key = Option.none ∧
      st'.eng.fileState.get? key = Option.none ∧
      st'.out.fixed = st.out.fixed ++ [⟨st.idxVal, c, st.tagObj, .cand⟩] := by
  rcases hE : performTestWithRetries cfg client.testIndexer st.eng.callIdx
      (.dict (setBaseUrl st.idxVal c)) with ⟨r, ci2, sl2⟩
  rw [hE] at hres
  simp only [] at hres
  subst hres
  by_cases hdr : cfg.DRY_RUN = true <;>
  · refine ⟨(candIter cfg client idxId key orig bus0 now c st).2, ?_, ?_, ?_, ?_⟩
    · simp [candIter, hE, hdr]
    · simp [candIter, hE, hdr]
      exact clearState_get? _ _ hnd
    · simp [candIter, hE, hdr]
      exact clearState_file_get? _ _ hnd hsync
    · simp [candIter, hE, hdr, clearState_out, ProcSt.absorb, ProcSt.addFixed,
        ProcSt.logUpdate]

theorem absorb_listVal (st : ProcSt) (p : PerformOut) : (st.absorb p).listVal = st.listVal := rfl

theorem logUpdate_listVal (st : ProcSt) (i u : PyVal) :
    (st.logUpdate i u).listVal = st.listVal := rfl

theorem addFixed_listVal (st : ProcSt) (f : FixEntry) :
    (st.addFixed f).listVal = st.listVal := rfl

theorem addFailed_listVal (st : ProcSt) (d : PyDict) :
    (st.addFailed d).listVal = st.listVal := rfl

theorem rebindIdx_listVal (st : ProcSt) (v : PyDict) :
    (st.rebindIdx v).listVal = st.listVal := rfl

theorem innerCandLoop_listVal (cfg : Config) (client : Client) (idxId : PyVal)
    (hG : (cfg.APPLY_TAG_SAVE_BEFORE_TEST && !cfg.DRY_RUN) = false) :
    ∀ (l : List PyVal) (st : ProcSt),
      (innerCandLoop cfg client idxId st l).listVal = st.listVal := by
  intro l
  induction l with
  | nil => intro st; rfl
  | cons c rest ih =>
    intro st
    simp only [innerCandLoop, hG, Bool.false_eq_true, if_false]
    repeat' split
    all_goals simp [absorb_listVal, logUpdate_listVal, addFixed_listVal, ih]

theorem origWithTagStage_listVal (cfg : Config) (client : Client) (idxId : PyVal)
    (key : String) (bus : List PyVal)
    (hG : (cfg.APPLY_TAG_SAVE_BEFORE_TEST && !cfg.DRY_RUN) = false) :
    ∀ st : ProcSt, (origWithTagStage cfg client idxId key bus st).listVal = st.listVal := by
  intro st
  simp only [origWithTagStage, hG, Bool.false_eq_true, if_false]
  repeat' split
  all_goals simp [absorb_listVal, logUpdate_listVal, addFixed_listVal, clearState_listVal,
    innerCandLoop_listVal cfg client idxId hG]

theorem tagBlock_listVal (cfg : Config) (client : Client) (idxId : PyVal)
    (key : String) (bus : List PyVal) (c : PyVal) (st : ProcSt)
    (hG : (cfg.APPLY_TAG_SAVE_BEFORE_TEST && !cfg.DRY_RUN) = false) :
    ((tagBlock cfg client idxId key bus c st).2).listVal = st.listVal := by
  simp only [tagBlock]
  split <;> rename_i hd stH heq
  · repeat' split at heq
    all_goals
      first
      | (simp at heq; done)
      | (simp only [Prod.mk.injEq] at heq
         rcases heq with ⟨-, heq⟩
         subst heq
         simp [absorb_listVal, logUpdate_listVal, addFixed_listVal, clearState_listVal,
           rebindIdx_listVal])
  · have hgoal : ∀ Y : ProcSt, Y.listVal = st.listVal →
        (origWithTagStage cfg client idxId key bus
          (if Y.tagObj = PyVal.none then { Y with tagObj := obtainTag cfg client }
           else Y)).listVal = st.listVal := by
      intro Y hY
      rw [origWithTagStage_listVal cfg client idxId key bus hG]
      split <;> simpa
    apply hgoal
    repeat' split at heq
    all_goals
      first
      | (simp at heq; done)
      | (simp only [Prod.mk.injEq] at heq
         rcases heq with ⟨-, heq⟩
         subst heq
         simp [absorb_listVal, logUpdate_listVal, addFixed_listVal, clearState_listVal,
           rebindIdx_listVal])

theorem candIter_listVal (cfg : Config) (client : Client) (idxId : PyVal)
    (key : String) (orig : PyDict) (bus0 : List PyVal) (now : Int) (c : PyVal) (st : ProcSt)
    (hG : (cfg.APPLY_TAG_SAVE_BEFORE_TEST && !cfg.DRY_RUN) = false) :
    ((candIter cfg client idxId key orig bus0 now c st).2).listVal = st.listVal := by
  simp only [candIter]
  split
  · simp [absorb_listVal]
  · repeat' split
    all_goals simp [absorb_listVal, logUpdate_listVal, addFixed_listVal, clearState_listVal]
  · split <;> rename_i u stH heq
    · repeat' split at heq
      all_goals
        first
        | (simp at heq; done)
        | (simp only [Prod.mk.injEq] at heq
           rcases heq with ⟨-, heq⟩
           subst heq
           simp [absorb_listVal, logUpdate_listVal, addFixed_listVal, clearState_listVal])
    · have hSH : stH.listVal = st.listVal := by
        repeat' split at heq
        all_goals
          first
          | (simp at heq; done)
          | (simp only [Prod.mk.injEq] at heq
             rcases heq with ⟨-, heq⟩
             subst heq
             simp [absorb_listVal, logUpdate_listVal, addFixed_listVal, clearState_listVal])
      rcases hTB : (if cfg.TAG_TO_TRY ≠ "" then tagBlock cfg client idxId key bus0 c stH
          else (false, stH)) with ⟨brkT, stT⟩
      have hST : stT.listVal = st.listVal := by
        split at hTB
        · have h := tagBlock_listVal cfg client idxId key bus0 c stH hG
          rw [hTB] at h
          rw [h, hSH]
        · simp only [Prod.mk.injEq] at hTB
          rcases hTB with ⟨-, hTB⟩
          subst hTB
          exact hSH
      cases brkT
      · simp only [Bool.false_eq_true, if_false]
        rcases hBK : (if (!stT.updated) = true then bumpFailState cfg now stT key
            else Except.ok stT) with e | stB
        · exact hST
        · have hB : stB.listVal = stT.listVal := by
            split at hBK
            · exact (bumpFailState_frame _ _ _ _ _ hBK).2.2.1
            · injection hBK with h
              subst h
              rfl
          simp only [addFailed_listVal]
          split <;> simp [logUpdate_listVal, hB, hST]
      · exact hST

theorem candLoop_listVal (cfg : Config) (client : Client) (idxId : PyVal)
    (key : String) (orig : PyDict) (bus0 : List PyVal) (now : Int)
    (hG : (cfg.APPLY_TAG_SAVE_BEFORE_TEST && !cfg.DRY_RUN) = false) :
    ∀ (bus : List PyVal) (st : ProcSt),
      ((candLoop cfg client idxId key orig bus0 now st bus).2).listVal = st.listVal := by
  intro bus
  induction bus with
  | nil => intro st; rfl
  | cons c rest ih =>
    intro st
    have hit := candIter_listVal cfg client idxId key orig bus0 now c st hG
    rcases hCI : candIter cfg client idxId key orig bus0 now c st with ⟨sig, stI⟩
    rw [hCI] at hit
    cases sig
    · simpa [candLoop, hCI] using hit
    · rw [show candLoop cfg client idxId key orig bus0 now st (c :: rest)
          = candLoop cfg client idxId key orig bus0 now stI rest by simp [candLoop, hCI]]
      rw [ih stI]
      exact hit
    · simpa [candLoop, hCI] using hit

theorem asIsStage_listVal (cfg : Config) (client : Client) (st : ProcSt) :
    ((asIsStage cfg client st).2).listVal = st.listVal := by
  simp only [asIsStage]
  repeat' split
  all_goals simp [absorb_listVal]

theorem processBody_listVal (cfg : Config) (client : Client) (now : Int) (eng : EngSt)
    (idxId : PyVal) (idx : PyDict)
    (hG : (cfg.APPLY_TAG_SAVE_BEFORE_TEST && !cfg.DRY_RUN) = false) :
    (processBody cfg client now eng idxId idx).2.2 = idx := by
  simp only [processBody]
  split
  · rfl
  · split
    · rfl
    · rfl
    · rcases hAS : asIsStage cfg client
          (if (decide ¬cfg.TAG_TO_TRY = "" && cfg.TAG_FORCE) = true then
            { eng := eng, out := ⟨[], [], []⟩, idxVal := idx, listVal := idx, aliased := true,
              updated := false, tagObj := obtainTag cfg client }
          else
            ⟨eng, ⟨[], [], []⟩, idx, idx, true, false, PyVal.none⟩) with ⟨k, stA⟩
      have hA := asIsStage_listVal cfg client
        (if (decide ¬cfg.TAG_TO_TRY = "" && cfg.TAG_FORCE) = true then
          { eng := eng, out := ⟨[], [], []⟩, idxVal := idx, listVal := idx, aliased := true,
            updated := false, tagObj := obtainTag cfg client }
        else
          ⟨eng, ⟨[], [], []⟩, idx, idx, true, false, PyVal.none⟩)
      rw [hAS] at hA
      have hA' : stA.listVal = idx := by
        rw [hA]
        split <;> rfl
      cases k
      · have hCL := candLoop_listVal cfg client idxId (pyStr idxId) idx
          (getAlternateBaseUrls idx) now hG (getAlternateBaseUrls idx) stA
        rcases hCLe : candLoop cfg client idxId (pyStr idxId) idx (getAlternateBaseUrls idx)
            now stA (getAlternateBaseUrls idx) with ⟨o, stC⟩
        rw [hCLe] at hCL
        simp only [] at hCL
        cases o <;> simp [hCLe, addFailed_listVal, hCL, hA']
      · simp [clearState_listVal, addFixed_listVal, hA']

theorem processIndexer_listVal (cfg : Config) (client : Client)
    (statusMap : List (PyVal × PyDict)) (now : Int) (eng : EngSt) (idx : PyDict)
    (hG : (cfg.APPLY_TAG_SAVE_BEFORE_TEST && !cfg.DRY_RUN) = false)
    (r : IdxOut × EngSt × PyDict)
    (h : processIndexer cfg client statusMap now eng idx = .ok r) :
    r.2.2 = idx := by
  simp only [processIndexer] at h
  split at h
  · injection h with h
    subst h
    rfl
  · split at h
    · injection h with h
      subst h
      exact (processBody_listVal cfg client now eng _ idx hG).symm ▸ rfl
    · split at h
      · cases h
      · injection h with h
        subst h
        rfl
      · injection h with h
        subst h
        exact (processBody_listVal cfg client now eng _ idx hG).symm ▸ rfl

theorem sweepGo_records (cfg : Config) (client : Client)
    (statusMap : List (PyVal × PyDict)) (now : Int)
    (hG : (cfg.APPLY_TAG_SAVE_BEFORE_TEST && !cfg.DRY_RUN) = false) :
    ∀ (idxs : List PyDict) (eng : EngSt) (r : IdxOut × EngSt × List PyDict),
      sweepGo cfg client statusMap now idxs eng = .ok r → r.2.2 = idxs := by
  intro idxs
  induction idxs with
  | nil =>
    intro eng r h
    simp only [sweepGo] at h
    injection h with h
    subst h
    rfl
  | cons idx rest ih =>
    intro eng r h
    simp only [sweepGo] at h
    split at h
    · cases h
    · rename_i out1 eng1 lv1 hPI
      split at h
      · cases h
      · rename_i outR engF lvs hSG
        injection h with h
        subst h
        have h1 := processIndexer_listVal cfg client statusMap now eng idx hG _ hPI
        have h2 := ih eng1 _ hSG
        simp only [] at h1 h2
        simp [h1, h2]

/-- Claim C3, corrected: outside the save-before-test mode (that is, unless
`APPLY_TAG_SAVE_BEFORE_TEST` is set while dry-run is off), the engine never
mutates the records held by the indexer list: every record's final value
equals its initial value for every sweep that completes. -/
theorem C3_amended (cfg : Config) (client : Client) (indexers : List PyDict)
    (statuses : List PyDict) (state0 : PyDict) (now : Int) (out : SweepOut)
    (hG : (cfg.APPLY_TAG_SAVE_BEFORE_TEST && !cfg.DRY_RUN) = false)
    (h : runOnce cfg client indexers statuses state0 now = .ok out) :
    out.finalRecords = indexers := by
  simp only [runOnce] at h
  split at h
  · injection h with h
    subst h
    rfl
  · split at h
    · cases h
    · rename_i r hSG
      injection h with h
      subst h
      exact sweepGo_records cfg client _ now hG indexers _ _ hSG

/-- Claim C1, corrected: (i) an indexer with a truthy id, no authoritative
failure signal and a false heuristic detector result is appended to *no*
bucket (line 336 is a bare `continue`), rather than to `skipped` as claimed;
(ii) in a no-tag sweep in which every test call returns an unsuccessful
response, the indexer is appended to `failed` once *per candidate URL* (the
failure bookkeeping of lines 706-726 sits inside the candidate loop), not
exactly once. -/
theorem C1_amended :
    (∀ (cfg : Config) (client : Client) (statusMap : List (PyVal × PyDict)) (now : Int)
        (eng : EngSt) (idx : PyDict),
      truthy (idxIdOf idx) = true →
      hasFailSignal statusMap (idxIdOf idx) = false →
      isIndexerError idx = .ok false →
      processIndexer cfg client statusMap now eng idx = .ok (⟨[], [], []⟩, eng, idx)) ∧
    (∀ (cfg : Config) (client : Client) (idx : PyDict) (statuses : List PyDict)
        (state0 : PyDict) (now : Int) (fr : PyVal) (e : PyDict) (cf : Int),
      cfg.TEST_AS_UI = false → cfg.TAG_TO_TRY = "" → okOfResp fr = false →
      (∀ i q, client.testIndexer i q = .ok fr) → 1 ≤ cfg.INDEXER_MAX_ATTEMPTS →
      cfg.INSPECT_INDEXERS = false → truthy (idxIdOf idx) = true →
      (hasFailSignal (statuses.foldl (fun m sd => svInsert m (dgetv sd "indexerId") sd) [])
          (idxIdOf idx) = true ∨
        (hasFailSignal (statuses.foldl (fun m sd => svInsert m (dgetv sd "indexerId") sd) [])
          (idxIdOf idx) = false ∧ isIndexerError idx = .ok true)) →
      (getAlternateBaseUrls idx).isEmpty = false →
      cooldownGate cfg now state0 idx (idxIdOf idx) (pyStr (idxIdOf idx)) = .ok false →
      goodStateB state0 = true →
      state0.get? (pyStr (idxIdOf idx)) = some (.dict e) →
      e.get? "consecutive_failures" = some (.int cf) →
      0 ≤ cf → cf < (cfg.INDEXER_MAX_ATTEMPTS : Int) →
      ∃ out : SweepOut, runOnce cfg client [idx] statuses state0 now = .ok out ∧
        out.fixed = [] ∧ out.skipped = [] ∧
        out.failed = List.replicate (getAlternateBaseUrls idx).length idx) := by
  constructor
  · intro cfg client statusMap now eng idx h1 h2 h3
    simp [processIndexer, h1, h2, h3]
  · intro cfg client idx statuses state0 now fr e cf hUI hT hfr ho hmax hIN hid hsig hbus
      hgate hg hget hcf h0 hlt
    obtain ⟨out, e', q1, q2, q3, q4, q5, q6, q7, q8, q9, q10⟩ :=
      runOnce_noTag_allFail cfg client idx statuses state0 now fr e cf
        hUI hT hfr ho hmax hIN hid hsig hbus hgate hg hget hcf h0 hlt
    exact ⟨out, q1, q2, q3, q4⟩

/-- Claim C4, corrected: starting from `consecutive_failures =
max_attempts - 1`, a no-tag sweep in which every test call returns an
unsuccessful response ends with the entry's `consecutive_failures` equal to
`(len - 1) % max_attempts`, where `len` is the number of candidate URLs - the
counter is bumped once per failing candidate, wrapping through the cooldown
reset whenever it reaches `max_attempts` - and with `next_allowed_at = now +
cooldown`.  The claimed final value `0` occurs exactly when `len` is congruent
to `1` modulo `max_attempts`. -/
theorem C4_amended (cfg : Config) (client : Client) (idx : PyDict)
    (statuses : List PyDict) (state0 : PyDict) (now : Int) (fr : PyVal) (e : PyDict)
    (hUI : cfg.TEST_AS_UI = false) (hT : cfg.TAG_TO_TRY = "")
    (hfr : okOfResp fr = false)
    (ho : ∀ i q, client.testIndexer i q = .ok fr)
    (hmax : 1 ≤ cfg.INDEXER_MAX_ATTEMPTS)
    (hIN : cfg.INSPECT_INDEXERS = false)
    (hid : truthy (idxIdOf idx) = true)
    (hsig : hasFailSignal (statuses.foldl (fun m sd => svInsert m (dgetv sd "indexerId") sd) [])
        (idxIdOf idx) = true ∨
      (hasFailSignal (statuses.foldl (fun m sd => svInsert m (dgetv sd "indexerId") sd) [])
        (idxIdOf idx) = false ∧ isIndexerError idx = .ok true))
    (hbus : (getAlternateBaseUrls idx).isEmpty = false)
    (hgate : cooldownGate cfg now state0 idx (idxIdOf idx) (pyStr (idxIdOf idx)) = .ok false)
    (hg : goodStateB state0 = true)
    (hget : state0.get? (pyStr (idxIdOf idx)) = some (.dict e))
    (hcf : e.get? "consecutive_failures"
      = some (.int ((cfg.INDEXER_MAX_ATTEMPTS : Int) - 1))) :
    ∃ (out : SweepOut) (e' : PyDict),
      runOnce cfg client [idx] statuses state0 now = .ok out ∧
      out.finalMemState.get? (pyStr (idxIdOf idx)) = some (.dict e') ∧
      out.finalFileState = out.finalMemState ∧
      e'.get? "consecutive_failures"
        = some (.int ((((getAlternateBaseUrls idx).length : Int) - 1)
            % (cfg.INDEXER_MAX_ATTEMPTS : Int))) ∧
      e'.get? "next_allowed_at"
        = some (.int (now + (cfg.INDEXER_COOLDOWN_MIN : Int) * 60)) := by
  have hlen : 1 ≤ (getAlternateBaseUrls idx).length := by
    rcases hbu : getAlternateBaseUrls idx with _ | ⟨a, l⟩
    · rw [hbu] at hbus
      simp at hbus
    · simp
  obtain ⟨out, e', q1, q2, q3, q4, q5, q6, q7, q8, q9, q10⟩ :=
    runOnce_noTag_allFail cfg client idx statuses state0 now fr e
      ((cfg.INDEXER_MAX_ATTEMPTS : Int) - 1)
      hUI hT hfr ho hmax hIN hid hsig hbus hgate hg hget hcf (by omega)
      (by omega)
  refine ⟨out, e', q1, q6, q7, ?_, ?_⟩
  · rw [q8]
    have harith : (cfg.INDEXER_MAX_ATTEMPTS : Int) - 1
          + ((getAlternateBaseUrls idx).length : Int)
        = (((getAlternateBaseUrls idx).length : Int) - 1)
          + (cfg.INDEXER_MAX_ATTEMPTS : Int) * 1 := by ring
    rw [harith, Int.add_mul_emod_self_left]
  · apply q9
    have : (1 : Int) ≤ ((getAlternateBaseUrls idx).length : Int) := by exact_mod_cast hlen
    omega

/-- Counterexample to claim C1 as stated: sweeping a healthy indexer (no
failure signal, heuristic detector false) together with a broken one that has
two candidate URLs, with every test call returning an unsuccessful response,
yields `skipped = []` - the healthy indexer lands in *no* bucket - and the
broken indexer appears *twice* in `failed`. -/
theorem C1_counterexample :
    (runOnce exCfg exClientFail [exHealthy, exBroken] [] .nil 1000).map
        (fun o => (o.fixed, o.skipped, o.failed))
      = .ok ([], [], [exBroken, exBroken]) := by
  decide

/-- Witness for `C1_amended` at a concrete configuration: the healthy indexer
of `C1_counterexample` is classified into no bucket, and the broken one is
appended to `failed` once per candidate URL. -/
theorem C1_amended_witness :
    processIndexer exCfg exClientFail [] 1000 ⟨0, [], [], .nil, .nil⟩ exHealthy
      = .ok (⟨[], [], []⟩, ⟨0, [], [], .nil, .nil⟩, exHealthy) ∧
    (∃ out : SweepOut, runOnce exCfg exClientFail [exBroken] [] exState2 1000 = .ok out ∧
      out.fixed = [] ∧ out.skipped = [] ∧
      out.failed = List.replicate (getAlternateBaseUrls exBroken).length exBroken) :=
  ⟨C1_amended.1 exCfg exClientFail [] 1000 ⟨0, [], [], .nil, .nil⟩ exHealthy
     (by decide) (by decide) (by decide),
   C1_amended.2 exCfg exClientFail exBroken [] exState2 1000 exFail
     (PyDict.ofList [("consecutive_failures", pi 2)]) 2 rfl rfl (by decide) (fun _ _ => rfl)
     (by decide) rfl (by decide) (Or.inr ⟨rfl, by decide⟩) (by decide) (by decide) (by decide)
     (by decide) (by decide) (by decide) (by decide)⟩

/-- Counterexample to claim C2 as stated: a trial variant succeeds - the
`fixed` bucket records the candidate-UI-payload kind `candUi` (lines 497-503)
- yet afterwards the persisted recovery state still contains the entry for
indexer 5, in both the in-memory state and the state file. -/
theorem C2_counterexample :
    (runOnce exCfg exClientThird [exBroken5] [] exState5 1000).map
        (fun o => (o.fixed.map FixEntry.kind, o.finalMemState.get? "5",
          o.finalFileState.get? "5"))
      = .ok ([.candUi], some (pd [("consecutive_failures", pi 2)]),
          some (pd [("consecutive_failures", pi 2)])) := by
  decide

/-- Witness for `C2_amended` at a concrete configuration: a successful
plain-candidate trial breaks out of the loop, records the fix and removes the
state entry from both the in-memory state and the state file. -/
theorem C2_amended_witness :
    ∃ st', candIter exCfg exClientOk (pi 5) "5" exBroken5 [] 1000 (ps "http://b") exProc5
        = (.brk, st') ∧
      st'.eng.memState.get? "5" = Option.none ∧
      st'.eng.fileState.get? "5" = Option.none ∧
      st'.out.fixed = exProc5.out.fixed
        ++ [⟨exProc5.idxVal, ps "http://b", exProc5.tagObj, .cand⟩] :=
  C2_amended exCfg exClientOk (pi 5) "5" exBroken5 [] 1000 (ps "http://b") exProc5
    (by decide) rfl (by decide)

/-- Counterexample to claim C3 as stated: (i) with `APPLY_TAG_SAVE_BEFORE_TEST`
set and dry-run off, the record held by the indexer list ends the sweep
mutated in place (the recovery tag was added to it); (ii) when every candidate
trial raises, the `continue` at line 519 skips the failure bookkeeping
entirely: no `update_indexer` revert is ever sent and the indexer lands in no
bucket. -/
theorem C3_counterexample :
    (runOnce exCfgTag exClientTag [exBroken5] [] .nil 1000).map SweepOut.finalRecords
      = .ok [addTagToIndexer exBroken5 exTag] ∧
    addTagToIndexer exBroken5 exTag ≠ exBroken5 ∧
    (runOnce exCfgLive exClientRaise [exBroken5] [] .nil 1000).map
        (fun o => (o.fixed, o.skipped, o.failed, o.updates)) = .ok ([], [], [], []) := by
  refine ⟨by decide, by decide, by decide⟩

/-- Witness for `C3_amended` at a concrete configuration outside the
save-before-test mode: the sweep returns the indexer records unchanged. -/
theorem C3_amended_witness :
    (exCfg.APPLY_TAG_SAVE_BEFORE_TEST && !exCfg.DRY_RUN) = false ∧
    runOnce exCfg exClientFail [exHealthy] [] .nil 1000
      = .ok ⟨[], [], [], .nil, .nil, [], [], [exHealthy]⟩ ∧
    (⟨[], [], [], .nil, .nil, [], [], [exHealthy]⟩ : SweepOut).finalRecords
      = [exHealthy] :=
  ⟨by decide, by decide,
   C3_amended exCfg exClientFail [exHealthy] [] .nil 1000
     ⟨[], [], [], .nil, .nil, [], [], [exHealthy]⟩ (by decide) (by decide)⟩

/-- Counterexample to claim C4 as stated: starting the sweep at
`consecutive_failures = 2 = max_attempts - 1` with two failing candidate URLs,
the entry ends at `consecutive_failures = 1`, not the claimed `0`
(`next_allowed_at` is set as claimed). -/
theorem C4_counterexample :
    (runOnce exCfg exClientFail [exBroken] [] exState2 1000).map
        (fun o => o.finalMemState.get? "2")
      = .ok (some (pd [("consecutive_failures", pi 1), ("next_allowed_at", pi 4600)])) ∧
    (runOnce exCfg exClientFail [exBroken] [] exState2 1000).map
        (fun o => decide (o.finalMemState.get? "2"
          = some (pd [("consecutive_failures", pi 0), ("next_allowed_at", pi 4600)])))
      = .ok false := by
  refine ⟨by decide, by decide⟩

/-- Witness for `C4_amended` at a concrete configuration: with
`max_attempts = 3`, a starting count of `2` and two failing candidates, the
final count is `(2 - 1) % 3 = 1` and the cooldown stamp is set. -/
theorem C4_amended_witness :
    ∃ (out : SweepOut) (e' : PyDict),
      runOnce exCfg exClientFail [exBroken] [] exState2 1000 = .ok out ∧
      out.finalMemState.get? (pyStr (idxIdOf exBroken)) = some (.dict e') ∧
      out.finalFileState = out.finalMemState ∧
      e'.get? "consecutive_failures"
        = some (.int ((((getAlternateBaseUrls exBroken).length : Int) - 1)
            % (exCfg.INDEXER_MAX_ATTEMPTS : Int))) ∧
      e'.get? "next_allowed_at"
        = some (.int (1000 + (exCfg.INDEXER_COOLDOWN_MIN : Int) * 60)) :=
  C4_amended exCfg exClientFail exBroken [] exState2 1000 exFail
    (PyDict.ofList [("consecutive_failures", pi 2)]) rfl rfl (by decide) (fun _ _ => rfl)
    (by decide) rfl (by decide) (Or.inr ⟨rfl, by decide⟩) (by decide) (by decide) (by decide)
    (by decide) (by decide)

/-! ## C7 — the candidate generator deduplicates, preserving first-seen
order -/

theorem pyListMem_false_iff (c : PyVal) (out : List PyVal) :
    pyListMem c out = false ↔ ∀ e ∈ out, pbeq e c = false := by
  simp [pyListMem, List.any_eq_false]

theorem dedupGo_pairwise (l : List PyVal) :
    ∀ out, List.Pairwise (fun a b => pbeq a b = false) out →
      List.Pairwise (fun a b => pbeq a b = false) (dedupGo out l) := by
  induction l with
  | nil => intro out h; simpa [dedupGo] using h
  | cons c t ih =>
    intro out h
    by_cases hm : pyListMem c out = true
    · simpa [dedupGo, hm] using ih out h
    · have hm' : pyListMem c out = false := by simpa using hm
      have hnew : List.Pairwise (fun a b => pbeq a b = false) (out ++ [c]) := by
        rw [List.pairwise_append]
        refine ⟨h, by simp, fun a ha b hb => ?_⟩
        rw [List.mem_singleton.mp hb]
        exact (pyListMem_false_iff c out).mp hm' a ha
      simpa [dedupGo, hm'] using ih (out ++ [c]) hnew

theorem dedupGo_sublist (l : List PyVal) :
    ∀ out, (dedupGo out l).Sublist (out ++ l) := by
  induction l with
  | nil => intro out; simp [dedupGo]
  | cons c t ih =>
    intro out
    by_cases hm : pyListMem c out = true
    · simp only [dedupGo, hm, if_true]
      exact (ih out).trans (List.Sublist.append_left (List.sublist_cons_self c t) out)
    · have hm' : pyListMem c out = false := by simpa using hm
      simp only [dedupGo, hm', if_false, Bool.false_eq_true]
      have := ih (out ++ [c])
      simpa [List.append_assoc] using this

theorem dedupGo_prefix (l : List PyVal) :
    ∀ out, ∃ suff, dedupGo out l = out ++ suff := by
  induction l with
  | nil => intro out; exact ⟨[], by simp [dedupGo]⟩
  | cons c t ih =>
    intro out
    by_cases hm : pyListMem c out = true
    · simpa [dedupGo, hm] using ih out
    · have hm' : pyListMem c out = false := by simpa using hm
      obtain ⟨s, hs⟩ := ih (out ++ [c])
      exact ⟨c :: s, by simp only [dedupGo, hm', if_false, Bool.false_eq_true, hs,
        List.append_assoc, List.singleton_append]⟩

theorem pyListMem_append_left (c : PyVal) (out suff : List PyVal)
    (h : pyListMem c out = true) : pyListMem c (out ++ suff) = true := by
  simp only [pyListMem, List.any_append, Bool.or_eq_true]
  exact Or.inl (by simpa [pyListMem] using h)

theorem dedupGo_cover (l : List PyVal) :
    ∀ out, ∀ c ∈ l, c ∈ dedupGo out l ∨ pyListMem c (dedupGo out l) = true := by
  induction l with
  | nil => intro out c hc; cases hc
  | cons a t ih =>
    intro out c hc
    by_cases hm : pyListMem a out = true
    · simp only [dedupGo, hm, if_true]
      rcases List.mem_cons.mp hc with rfl | hct
      · obtain ⟨suff, hsuff⟩ := dedupGo_prefix t out
        exact Or.inr (hsuff ▸ pyListMem_append_left c out suff hm)
      · exact ih out c hct
    · have hm' : pyListMem a out = false := by simpa using hm
      simp only [dedupGo, hm', if_false, Bool.false_eq_true]
      rcases List.mem_cons.mp hc with rfl | hct
      · obtain ⟨suff, hsuff⟩ := dedupGo_prefix t (out ++ [c])
        refine Or.inl ?_
        rw [hsuff]
        exact List.mem_append_left suff (List.mem_append_right out (List.mem_singleton.mpr rfl))
      · exact ih (out ++ [a]) c hct

theorem pbeq_str_iff (a b : String) : pbeq (.str a) (.str b) = true ↔ a = b := by
  simp [pbeq]

theorem firstIdx_append_not_mem (x : PyVal) (l1 l2 : List PyVal) (h : x ∉ l1) :
    firstIdx (l1 ++ l2) x = l1.length + firstIdx l2 x := by
  induction l1 with
  | nil => simp [firstIdx]
  | cons a t ih =>
    have hax : ¬(a = x) := fun hh => h (hh ▸ List.mem_cons_self a t)
    have hxt : x ∉ t := fun hh => h (List.mem_cons_of_mem a hh)
    simp [firstIdx, hax, ih hxt]
    omega

theorem firstIdx_append_mem (x : PyVal) (l1 l2 : List PyVal) (h : x ∈ l1) :
    firstIdx (l1 ++ l2) x = firstIdx l1 x := by
  induction l1 with
  | nil => cases h
  | cons a t ih =>
    by_cases hax : a = x
    · simp [firstIdx, hax]
    · have hxt : x ∈ t := by
        rcases List.mem_cons.mp h with hh | hh
        · exact absurd hh.symm hax
        · exact hh
      simp [firstIdx, hax, ih hxt]

theorem firstIdx_lt_length (x : PyVal) (l : List PyVal) (h : x ∈ l) :
    firstIdx l x < l.length := by
  induction l with
  | nil => cases h
  | cons a t ih =>
    by_cases hax : a = x
    · simp [firstIdx, hax, List.length]
    · have hxt : x ∈ t := by
        rcases List.mem_cons.mp h with hh | hh
        · exact absurd hh.symm hax
        · exact hh
      simp only [firstIdx, hax, if_false, List.length_cons]
      have := ih hxt
      omega

theorem firstIdx_self_cons (x : PyVal) (t : List PyVal) :
    firstIdx (x :: t) x = 0 := by simp [firstIdx]

/-- First-seen-order invariant of the deduplication loop, for candidate
lists whose elements are all strings (so that the Python `==` used by
`c not in out` coincides with structural equality). -/
theorem dedupGo_firstIdx (cands : List PyVal)
    (hstr : ∀ x ∈ cands, ∃ s, x = PyVal.str s) :
    ∀ (rest out pre : List PyVal), cands = pre ++ rest →
      (∀ x ∈ pre, x ∈ out) → (∀ x ∈ out, x ∈ pre) →
      List.Pairwise (fun a b => firstIdx cands a < firstIdx cands b) out →
      List.Pairwise (fun a b => firstIdx cands a < firstIdx cands b) (dedupGo out rest) := by
  intro rest
  induction rest with
  | nil => intro out pre hc hpo hop hpw; simpa [dedupGo] using hpw
  | cons c t ih =>
    intro out pre hc hpo hop hpw
    by_cases hm : pyListMem c out = true
    · -- `c` is Python-equal to something in `out`; since everything in sight
      -- is a string this means `c ∈ out` structurally
      have hcin : c ∈ out := by
        simp only [pyListMem, List.any_eq_true] at hm
        obtain ⟨e, he, hbe⟩ := hm
        obtain ⟨se, hse⟩ := hstr e (hc ▸ List.mem_append_left _ (hop e he))
        obtain ⟨sc, hsc⟩ := hstr c (hc ▸ List.mem_append_right pre (List.mem_cons_self c t))
        subst hse; subst hsc
        rw [(pbeq_str_iff se sc).mp hbe] at he
        exact he
      simp only [dedupGo, hm, if_true]
      refine ih out (pre ++ [c]) (by rw [hc, List.append_assoc]; rfl) ?_ ?_ hpw
      · intro x hx
        rcases List.mem_append.mp hx with hx | hx
        · exact hpo x hx
        · rw [List.mem_singleton.mp hx]; exact hcin
      · intro x hx
        exact List.mem_append_left _ (hop x hx)
    · have hm' : pyListMem c out = false := by simpa using hm
      have hcnotout : c ∉ out := fun hcin => by
        obtain ⟨sc, hsc⟩ := hstr c (hc ▸ List.mem_append_right pre (List.mem_cons_self c t))
        have : pbeq c c = true := by subst hsc; simp [pbeq]
        have := (pyListMem_false_iff c out).mp hm' c hcin
        simp_all
      have hcnotpre : c ∉ pre := fun hcp => hcnotout (hpo c hcp)
      have hidxc : firstIdx cands c = pre.length := by
        rw [hc, firstIdx_append_not_mem c pre _ hcnotpre, firstIdx_self_cons]
        omega
      simp only [dedupGo, hm', if_false, Bool.false_eq_true]
      refine ih (out ++ [c]) (pre ++ [c]) (by rw [hc, List.append_assoc]; rfl) ?_ ?_ ?_
      · intro x hx
        rcases List.mem_append.mp hx with hx | hx
        · exact List.mem_append_left _ (hpo x hx)
        · exact List.mem_append_right _ hx
      · intro x hx
        rcases List.mem_append.mp hx with hx | hx
        · exact List.mem_append_left _ (hop x hx)
        · exact List.mem_append_right _ hx
      · rw [List.pairwise_append]
        refine ⟨hpw, by simp, ?_⟩
        intro a ha b hb
        rw [List.mem_singleton.mp hb]
        have hapre : a ∈ pre := hop a ha
        have : firstIdx cands a < pre.length := by
          rw [hc, firstIdx_append_mem a pre _ hapre]
          exact firstIdx_lt_length a pre hapre
        omega

/-- **C7** (confirmed).  The sequence returned by
`get_alternate_base_urls` contains no Python-equal duplicates, is a
sublist of the collected candidate list (so relative order is preserved),
covers every collected candidate, and — whenever the collected candidates
are all strings, as they are for real records — its elements appear in
strictly increasing order of their first occurrence in the collected
candidate list (settings base URL first, then URL-list entries, then
config values, then field-descriptor values).  In particular a record
whose two URL sources hold the same URL yields that URL exactly once. -/
theorem C7_candidate_dedup (d : PyDict) :
    List.Pairwise (fun a b => pbeq a b = false) (getAlternateBaseUrls d) ∧
    (getAlternateBaseUrls d).Sublist (collectCandidates d) ∧
    (∀ c ∈ collectCandidates d, c ∈ getAlternateBaseUrls d ∨
       pyListMem c (getAlternateBaseUrls d) = true) ∧
    ((collectCandidates d).all (fun x => match x with
        | .str _ => true | _ => false) = true →
      List.Pairwise (fun a b =>
        firstIdx (collectCandidates d) a < firstIdx (collectCandidates d) b)
        (getAlternateBaseUrls d)) := by
  refine ⟨?_, ?_, ?_, ?_⟩
  · exact dedupGo_pairwise (collectCandidates d) [] List.Pairwise.nil
  · simpa using dedupGo_sublist (collectCandidates d) []
  · exact fun c hc => dedupGo_cover (collectCandidates d) [] c hc
  · intro hall
    have hstr : ∀ x ∈ collectCandidates d, ∃ s, x = PyVal.str s := by
      intro x hx
      have hx2 := List.all_eq_true.mp hall x hx
      cases x with
      | str s => exact ⟨s, rfl⟩
      | none => simp at hx2
      | bool b => simp at hx2
      | int n => simp at hx2
      | list l => simp at hx2
      | dict dd => simp at hx2
    exact dedupGo_firstIdx (collectCandidates d) hstr (collectCandidates d) [] []
      rfl (by simp) (by simp) List.Pairwise.nil

/-- Witness for C7 at the spec's own scenario record
`{'id': 5, 'status': 'error', 'settings': {'baseUrl': 'http://old'},
'indexerUrls': ['http://old', 'http://mirror']}`, whose two URL sources
both hold `http://old`: the generator yields it once, first. -/
theorem C7_candidate_dedup_witness :
    getAlternateBaseUrls (PyDict.ofList [("id", pi 5), ("status", ps "error"),
        ("settings", pd [("baseUrl", ps "http://old")]),
        ("indexerUrls", pl [ps "http://old", ps "http://mirror"])])
      = [ps "http://old", ps "http://mirror"] ∧
    List.Pairwise (fun a b =>
      firstIdx (collectCandidates (PyDict.ofList [("id", pi 5), ("status", ps "error"),
        ("settings", pd [("baseUrl", ps "http://old")]),
        ("indexerUrls", pl [ps "http://old", ps "http://mirror"])])) a
      < firstIdx (collectCandidates (PyDict.ofList [("id", pi 5), ("status", ps "error"),
        ("settings", pd [("baseUrl", ps "http://old")]),
        ("indexerUrls", pl [ps "http://old", ps "http://mirror"])])) b)
      (getAlternateBaseUrls (PyDict.ofList [("id", pi 5), ("status", ps "error"),
        ("settings", pd [("baseUrl", ps "http://old")]),
        ("indexerUrls", pl [ps "http://old", ps "http://mirror"])])) :=
  ⟨by decide,
   (C7_candidate_dedup (PyDict.ofList [("id", pi 5), ("status", ps "error"),
      ("settings", pd [("baseUrl", ps "http://old")]),
      ("indexerUrls", pl [ps "http://old", ps "http://mirror"])])).2.2.2 (by decide)⟩

/-! ## C9 — the retry/backoff policy of `_perform_test_with_retries` -/

theorem performGo_all_transient (cfg : Config) (test : Nat → PyVal → Except String PyVal)
    (p : PyVal) (err : Nat → String) :
    ∀ (R a ci : Nat) (sleeps : List Nat),
      (∀ j, j ≤ R → test (ci + j) p = .error (err (ci + j)) ∧ transientB (err (ci + j)) = true) →
      performGo cfg test p R a ci sleeps =
        ⟨.error (err (ci + R)), ci + R + 1,
         sleeps ++ (List.range R).map (fun j => cfg.TEST_RETRY_DELAY_SEC * (a + j + 1))⟩ := by
  intro R
  induction R with
  | zero =>
    intro a ci sleeps h
    have h0 := h 0 (Nat.le_refl 0)
    simp only [Nat.add_zero] at h0 ⊢
    simp [performGo, h0.1]
  | succ r ih =>
    intro a ci sleeps h
    have h0 := h 0 (Nat.zero_le _)
    simp only [Nat.add_zero] at h0
    have hrec := ih (a + 1) (ci + 1) (sleeps ++ [cfg.TEST_RETRY_DELAY_SEC * (a + 1)])
      (fun j hj => by
        have hh := h (j + 1) (by omega)
        have heq : ci + (j + 1) = ci + 1 + j := by omega
        rw [heq] at hh
        exact hh)
    have hstep : performGo cfg test p (r + 1) a ci sleeps
        = performGo cfg test p r (a + 1) (ci + 1)
          (sleeps ++ [cfg.TEST_RETRY_DELAY_SEC * (a + 1)]) := by
      simp [performGo, h0.1, h0.2]
    rw [hstep, hrec]
    have hci : ci + 1 + r = ci + (r + 1) := by omega
    have hmap : (List.range (r + 1)).map (fun j => cfg.TEST_RETRY_DELAY_SEC * (a + j + 1))
        = cfg.TEST_RETRY_DELAY_SEC * (a + 1)
          :: (List.range r).map (fun j => cfg.TEST_RETRY_DELAY_SEC * (a + 1 + j + 1)) := by
    -- `range (r+1) = 0 :: (range r).map (·+1)`, then align the indices
      rw [List.range_succ_eq_map, List.map_cons, List.map_map]
      refine congrArg₂ List.cons (by norm_num) (List.map_congr_left ?_)
      intro j _
      simp only [Function.comp]
      have : a + (j + 1) + 1 = a + 1 + j + 1 := by omega
      rw [this]
    rw [hci, hmap]
    simp [List.append_assoc]

/-- **C9** (confirmed).  An individual test call that raises is handled as
follows: if the error's (lowered) textual description carries no
rate-limit/timeout signature, the trial aborts immediately — exactly one
call is made, no backoff sleep happens, and the error propagates to the
caller; if every attempt raises a transient error, the call is retried
`TEST_RETRIES` additional times, sleeping `TEST_RETRY_DELAY_SEC * n`
before the `n`-th resubmission (linear backoff), after which the last
error propagates. -/
theorem C9_retry_policy (cfg : Config) (test : Nat → PyVal → Except String PyVal)
    (ci : Nat) (p : PyVal) (e : String) (err : Nat → String) :
    (test ci p = .error e → transientB e = false →
      performTestWithRetries cfg test ci p = ⟨.error e, ci + 1, []⟩)
    ∧ ((∀ j, j ≤ cfg.TEST_RETRIES → test (ci + j) p = .error (err (ci + j)) ∧
          transientB (err (ci + j)) = true) →
      performTestWithRetries cfg test ci p =
        ⟨.error (err (ci + cfg.TEST_RETRIES)), ci + cfg.TEST_RETRIES + 1,
         (List.range cfg.TEST_RETRIES).map (fun j => cfg.TEST_RETRY_DELAY_SEC * (j + 1))⟩) := by
  constructor
  · intro h1 h2
    cases hR : cfg.TEST_RETRIES <;>
      simp [performTestWithRetries, performGo, h1, h2, hR]
  · intro h
    have := performGo_all_transient cfg test p err cfg.TEST_RETRIES 0 ci [] h
    simpa [performTestWithRetries] using this

/-- Witness for C9: with `TEST_RETRIES = 2` and `TEST_RETRY_DELAY_SEC = 5`,
an always-`timeout` oracle yields three calls and sleeps `[5, 10]`, and an
always-`boom` oracle yields a single call, no sleeps, and the propagated
error. -/
theorem C9_retry_policy_witness :
    performTestWithRetries ⟨2, 5, "", false, true, false, [], 3, 60, false, false⟩
        (fun _ _ => .error "timeout") 0 (pd []) = ⟨.error "timeout", 3, [5, 10]⟩ ∧
    performTestWithRetries ⟨2, 5, "", false, true, false, [], 3, 60, false, false⟩
        (fun _ _ => .error "boom") 0 (pd []) = ⟨.error "boom", 1, []⟩ := by
  constructor
  · have := (C9_retry_policy ⟨2, 5, "", false, true, false, [], 3, 60, false, false⟩
      (fun _ _ => .error "timeout") 0 (pd []) "timeout" (fun _ => "timeout")).2
      (fun j _ => ⟨rfl, by decide⟩)
    simpa using this
  · have := (C9_retry_policy ⟨2, 5, "", false, true, false, [], 3, 60, false, false⟩
      (fun _ _ => .error "boom") 0 (pd []) "boom" (fun _ => "boom")).1 rfl (by decide)
    simpa using this

end Rotatarr
